import Mathlib

/-!
# Input manager of sway (`sway/input/input-manager.c`)

A shallow embedding of the device registry, the configuration resolver, the
seat-assignment engine and the application and reset of device configurations
of `sway/input/input-manager.c`, and theorems about them.

Conventions of the embedding.

* C strings are `String`s; `strcmp(a, b) == 0` is `a = b`.
* `int` fields are `Int`s; the "unset" sentinel is `INT_MIN`.
* A `float` is the `Nat` of its IEEE-754 bit pattern.  The only operation the
  source performs on one is the test `x != FLT_MIN`; `FLT_MIN` is neither a
  zero nor a NaN, so that test holds exactly when the bit patterns differ.
* Pointers to heap objects are addresses (`Nat`); pointer comparison is
  comparison of addresses.  A pointer to a seat is the seat's position in the
  seat list.
* A `wl_list` is a `List`, head first: `wl_list_insert(&l, x)` is `x :: l` and
  `wl_list_for_each` visits the list from its head.
* Global state (`server.input`, `config`) is passed explicitly as a `sway_state`.
* The driver (libinput) is outside the repository: the setter calls made on it are
  recorded in the state, in order, and what its getters answer is an argument.
* Allocation succeeds (the branches that only log an out-of-memory error are
  not part of the model); logging has no effect on the state.
-/

namespace Sway

/-! ## Constants -/

/-- The macro `DEFAULT_SEAT`. -/
def DEFAULT_SEAT : String := "seat0"

/-- The value of `INT_MIN` for a 32-bit `int`: the "unset" sentinel of the integer
fields of an input configuration. -/
def INT_MIN : Int := -2147483648

/-- The bit pattern of `FLT_MIN` (the smallest normal binary32 number): the
"unset" sentinel of `pointer_accel`. -/
def FLT_MIN : Nat := 0x00800000

/-! ## Devices -/

/-- The cases of `enum wlr_input_device_type` that the source distinguishes. -/
inductive wlr_input_device_type where
  | WLR_INPUT_DEVICE_KEYBOARD
  | WLR_INPUT_DEVICE_POINTER
  | WLR_INPUT_DEVICE_TOUCH
  | WLR_INPUT_DEVICE_TABLET_TOOL
  | WLR_INPUT_DEVICE_TABLET_PAD
  | WLR_INPUT_DEVICE_SWITCH
  deriving DecidableEq, Repr

open wlr_input_device_type

/-- The fields of `struct wlr_input_device` read by the source, together with what
the backend answers about the device: `addr` is the address of the object (the
driver handle), `is_libinput` the answer of `wlr_input_device_is_libinput` and
`tap_finger_count` that of `libinput_device_config_tap_get_finger_count`. -/
structure wlr_input_device where
  addr : Nat
  type : wlr_input_device_type
  vendor : Int
  product : Int
  name : String
  is_libinput : Bool
  tap_finger_count : Int
  deriving DecidableEq, Repr

/-- The `struct sway_input_device`: `addr` is the address of the object returned by
`calloc`, `wlr_device` the backend device it points to. -/
structure sway_input_device where
  addr : Nat
  identifier : String
  wlr_device : wlr_input_device
  deriving DecidableEq, Repr

/-- The characters that count as whitespace in the C locale. -/
def is_whitespace (c : Char) : Bool :=
  c == ' ' || c == '\t' || c == '\n' || c == '\r' || c == '\x0b' || c == '\x0c'

/-- Modelled from the spec: `strip_whitespace` (`common/stringop.c`) is not part of
the source file; it strips the whitespace that surrounds the string and leaves
the rest as it is. -/
def strip_whitespace (str : String) : String :=
  ⟨(str.data.dropWhile is_whitespace).rdropWhile is_whitespace⟩

/-- The loop `for (; *p; ++p) if (*p == ' ') *p = '_';`. -/
def replace_spaces (name : List Char) : List Char :=
  name.map fun c => if c = ' ' then '_' else c

/-- The function `input_device_get_identifier`: the name is stripped, its spaces become
underscores, and the result is formatted with `"%d:%d:%s"`. -/
def input_device_get_identifier (device : wlr_input_device) : String :=
  let vendor : Int := device.vendor
  let product : Int := device.product
  let name := strip_whitespace device.name
  let name : String := ⟨replace_spaces name.data⟩
  toString vendor ++ ":" ++ toString product ++ ":" ++ name

/-- The function `device_is_touchpad`. -/
def device_is_touchpad (device : sway_input_device) : Bool :=
  if device.wlr_device.type ≠ WLR_INPUT_DEVICE_POINTER
      || !device.wlr_device.is_libinput then
    false
  else
    decide (device.wlr_device.tap_finger_count > 0)

/-- The function `input_device_get_type`.  The final `return "unknown"` of the source is
reached by no case of the enumeration. -/
def input_device_get_type (device : sway_input_device) : String :=
  match device.wlr_device.type with
  | WLR_INPUT_DEVICE_POINTER =>
    if device_is_touchpad device then "touchpad" else "pointer"
  | WLR_INPUT_DEVICE_KEYBOARD => "keyboard"
  | WLR_INPUT_DEVICE_TOUCH => "touch"
  | WLR_INPUT_DEVICE_TABLET_TOOL => "tablet_tool"
  | WLR_INPUT_DEVICE_TABLET_PAD => "tablet_pad"
  | WLR_INPUT_DEVICE_SWITCH => "switch"

/-! ## Input configurations -/

/-- The member `calibration_matrix` of an input configuration: a flag and six floats. -/
structure calibration_matrix where
  configured : Bool
  matrix : List Nat
  deriving DecidableEq, Repr

/-- The fields of `struct input_config` that the source file reads or writes. -/
structure input_config where
  identifier : String
  input_type : Option String
  accel_profile : Int
  click_method : Int
  drag : Int
  drag_lock : Int
  dwt : Int
  left_handed : Int
  middle_emulation : Int
  natural_scroll : Int
  pointer_accel : Nat
  scroll_button : Int
  scroll_method : Int
  send_events : Int
  tap : Int
  tap_button_map : Int
  calibration_matrix : calibration_matrix
  deriving DecidableEq, Repr

/-- Modelled from the spec: `new_input_config` (`sway/config/input.c`) is not part of
the source file; it creates "a fresh config seeded from identity", every field
of which is unset. -/
def new_input_config (identifier : String) : input_config :=
  { identifier := identifier
    input_type := none
    accel_profile := INT_MIN
    click_method := INT_MIN
    drag := INT_MIN
    drag_lock := INT_MIN
    dwt := INT_MIN
    left_handed := INT_MIN
    middle_emulation := INT_MIN
    natural_scroll := INT_MIN
    pointer_accel := FLT_MIN
    scroll_button := INT_MIN
    scroll_method := INT_MIN
    send_events := INT_MIN
    tap := INT_MIN
    tap_button_map := INT_MIN
    calibration_matrix := { configured := false, matrix := [0, 0, 0, 0, 0, 0] } }

/-- Modelled from the spec: `merge_input_config` (`sway/config/input.c`) is not part of
the source file; it writes the fields of `src` over those of `dst`, where
"later writes win only for fields explicitly set, never overwriting with unset".
The identity of `dst` is kept. -/
def merge_input_config (dst src : input_config) : input_config :=
  { identifier := dst.identifier
    input_type := dst.input_type
    accel_profile := if src.accel_profile ≠ INT_MIN then src.accel_profile else dst.accel_profile
    click_method := if src.click_method ≠ INT_MIN then src.click_method else dst.click_method
    drag := if src.drag ≠ INT_MIN then src.drag else dst.drag
    drag_lock := if src.drag_lock ≠ INT_MIN then src.drag_lock else dst.drag_lock
    dwt := if src.dwt ≠ INT_MIN then src.dwt else dst.dwt
    left_handed := if src.left_handed ≠ INT_MIN then src.left_handed else dst.left_handed
    middle_emulation :=
      if src.middle_emulation ≠ INT_MIN then src.middle_emulation else dst.middle_emulation
    natural_scroll :=
      if src.natural_scroll ≠ INT_MIN then src.natural_scroll else dst.natural_scroll
    pointer_accel := if src.pointer_accel ≠ FLT_MIN then src.pointer_accel else dst.pointer_accel
    scroll_button := if src.scroll_button ≠ INT_MIN then src.scroll_button else dst.scroll_button
    scroll_method := if src.scroll_method ≠ INT_MIN then src.scroll_method else dst.scroll_method
    send_events := if src.send_events ≠ INT_MIN then src.send_events else dst.send_events
    tap := if src.tap ≠ INT_MIN then src.tap else dst.tap
    tap_button_map :=
      if src.tap_button_map ≠ INT_MIN then src.tap_button_map else dst.tap_button_map
    calibration_matrix :=
      if src.calibration_matrix.configured then src.calibration_matrix
      else dst.calibration_matrix }

/-! ## The global state -/

/-- One entry of the list `attachments` of a seat configuration. -/
structure seat_attachment_config where
  identifier : String
  deriving DecidableEq, Repr

/-- The fields of `struct seat_config` that the source file reads or writes;
`fallback` is `-1` when unset, `0` for false and `1` for true. -/
structure seat_config where
  name : String
  fallback : Int
  attachments : List seat_attachment_config
  deriving DecidableEq, Repr

/-- The `struct sway_seat`: `name` is `seat->wlr_seat->name`, `devices` holds the
addresses of the input devices attached to the seat, and `applied_config`
records the configuration last handed to `seat_apply_config` for the seat. -/
structure sway_seat where
  name : String
  devices : List Nat
  applied_config : Option seat_config
  deriving DecidableEq, Repr

/-- A call of one of the setters `libinput_device_config_*` with its argument. -/
inductive libinput_device_config where
  | accel_set_profile (v : Int)
  | click_set_method (v : Int)
  | tap_set_drag_enabled (v : Int)
  | tap_set_drag_lock_enabled (v : Int)
  | dwt_set_enabled (v : Int)
  | left_handed_set (v : Int)
  | middle_emulation_set_enabled (v : Int)
  | scroll_set_natural_scroll_enabled (v : Int)
  | accel_set_speed (v : Nat)
  | scroll_set_button (v : Int)
  | scroll_set_method (v : Int)
  | send_events_set_mode (v : Int)
  | tap_set_enabled (v : Int)
  | tap_set_button_map (v : Int)
  | calibration_set_matrix (m : List Nat)
  deriving DecidableEq, Repr

/-- The state the input manager works on: the lists `server.input->devices` and
`server.input->seats`, the lists `config->input_configs`,
`config->input_type_configs` and `config->seat_configs`, and the setter calls
made so far on each backend device (address of the device, call), oldest
first. -/
structure sway_state where
  devices : List sway_input_device
  seats : List sway_seat
  input_configs : List input_config
  input_type_configs : List input_config
  seat_configs : List seat_config
  libinput_calls : List (Nat × libinput_device_config)
  deriving DecidableEq, Repr

/-! ## Configuration resolver -/

/-- The pointer `str + n` into a C string of length at least `n`. -/
def str_offset (str : String) (n : Nat) : String :=
  ⟨str.data.drop n⟩

/-- The first loop of `input_device_get_config`: it returns at the first rule whose
identifier is the device's, and otherwise remembers the last `*` rule seen.
The result is `Sum.inl` of the rule returned from inside the loop, or
`Sum.inr` of the value of `wildcard_config` when the loop ends. -/
def input_device_get_config_loop (identifier : String) :
    List input_config → Option input_config → Sum input_config (Option input_config)
  | [], wildcard_config => Sum.inr wildcard_config
  | input_config :: rest, wildcard_config =>
    if input_config.identifier = identifier then
      Sum.inl input_config
    else if input_config.identifier = "*" then
      input_device_get_config_loop identifier rest (some input_config)
    else
      input_device_get_config_loop identifier rest wildcard_config

/-- The loop over `config->input_type_configs` shared by `input_device_get_config` and
`apply_input_type_config`: the first rule whose identifier, past its first five
characters, is the type of the device. -/
def find_type_config (device_type : String) : List input_config → Option input_config
  | [] => none
  | ic :: rest =>
    if str_offset ic.identifier 5 = device_type then some ic
    else find_type_config device_type rest

/-- The function `input_device_get_config`. -/
def input_device_get_config (s : sway_state) (device : sway_input_device) :
    Option input_config :=
  match input_device_get_config_loop device.identifier s.input_configs none with
  | Sum.inl input_config => some input_config
  | Sum.inr wildcard_config =>
    let device_type := input_device_get_type device
    match find_type_config device_type s.input_type_configs with
    | some input_config => some input_config
    | none => wildcard_config

/-- The second loop of `apply_input_type_config`: the first rule whose identifier is the
device's is replaced, in place, by a fresh configuration on which the type
rule and then the rule itself are merged. -/
def apply_input_type_config_loop (identifier device_type : String)
    (type_config : input_config) : List input_config → List input_config
  | [] => []
  | ic :: rest =>
    if identifier = ic.identifier then
      let current := new_input_config ic.identifier
      let current := merge_input_config current type_config
      let current := merge_input_config current ic
      { current with input_type := some device_type } :: rest
    else
      ic :: apply_input_type_config_loop identifier device_type type_config rest

/-- The function `apply_input_type_config`. -/
def apply_input_type_config (s : sway_state) (input_device : sway_input_device) :
    sway_state :=
  let device_type := input_device_get_type input_device
  match find_type_config device_type s.input_type_configs with
  | none => s
  | some type_config =>
    { s with
      input_configs :=
        apply_input_type_config_loop input_device.identifier device_type type_config
          s.input_configs }

/-! ## Pushing a configuration to the driver -/

/-- The setter calls of `input_manager_libinput_config_pointer` for the resolved
configuration `ic`, in the order of the source: one for each field that is set. -/
def libinput_config_pointer_calls (ic : input_config) : List libinput_device_config :=
  (if ic.accel_profile ≠ INT_MIN then [.accel_set_profile ic.accel_profile] else [])
  ++ (if ic.click_method ≠ INT_MIN then [.click_set_method ic.click_method] else [])
  ++ (if ic.drag ≠ INT_MIN then [.tap_set_drag_enabled ic.drag] else [])
  ++ (if ic.drag_lock ≠ INT_MIN then [.tap_set_drag_lock_enabled ic.drag_lock] else [])
  ++ (if ic.dwt ≠ INT_MIN then [.dwt_set_enabled ic.dwt] else [])
  ++ (if ic.left_handed ≠ INT_MIN then [.left_handed_set ic.left_handed] else [])
  ++ (if ic.middle_emulation ≠ INT_MIN then
        [.middle_emulation_set_enabled ic.middle_emulation] else [])
  ++ (if ic.natural_scroll ≠ INT_MIN then
        [.scroll_set_natural_scroll_enabled ic.natural_scroll] else [])
  ++ (if ic.pointer_accel ≠ FLT_MIN then [.accel_set_speed ic.pointer_accel] else [])
  ++ (if ic.scroll_button ≠ INT_MIN then [.scroll_set_button ic.scroll_button] else [])
  ++ (if ic.scroll_method ≠ INT_MIN then [.scroll_set_method ic.scroll_method] else [])
  ++ (if ic.send_events ≠ INT_MIN then [.send_events_set_mode ic.send_events] else [])
  ++ (if ic.tap ≠ INT_MIN then [.tap_set_enabled ic.tap] else [])
  ++ (if ic.tap_button_map ≠ INT_MIN then [.tap_set_button_map ic.tap_button_map] else [])

/-- The setter calls of `input_manager_libinput_config_keyboard` and of
`input_manager_libinput_config_switch` for the resolved configuration `ic`. -/
def libinput_config_keyboard_calls (ic : input_config) : List libinput_device_config :=
  if ic.send_events ≠ INT_MIN then [.send_events_set_mode ic.send_events] else []

/-- The setter calls of `input_manager_libinput_config_touch` for the resolved
configuration `ic`. -/
def libinput_config_touch_calls (ic : input_config) : List libinput_device_config :=
  (if ic.send_events ≠ INT_MIN then [.send_events_set_mode ic.send_events] else [])
  ++ (if ic.calibration_matrix.configured then
        [.calibration_set_matrix ic.calibration_matrix.matrix] else [])

/-- The common frame of the four functions `input_manager_libinput_config_*`: nothing
happens without a resolved configuration or on a device that is not a libinput
device; otherwise the calls are made on the device. -/
def libinput_config_with (calls : input_config → List libinput_device_config)
    (s : sway_state) (input_device : sway_input_device) : sway_state :=
  match input_device_get_config s input_device with
  | none => s
  | some ic =>
    if !input_device.wlr_device.is_libinput then s
    else
      { s with
        libinput_calls :=
          s.libinput_calls ++ (calls ic).map fun c => (input_device.wlr_device.addr, c) }

/-- The function `input_manager_libinput_config_pointer`. -/
def input_manager_libinput_config_pointer (s : sway_state)
    (input_device : sway_input_device) : sway_state :=
  libinput_config_with libinput_config_pointer_calls s input_device

/-- The function `input_manager_libinput_config_keyboard`. -/
def input_manager_libinput_config_keyboard (s : sway_state)
    (input_device : sway_input_device) : sway_state :=
  libinput_config_with libinput_config_keyboard_calls s input_device

/-- The function `input_manager_libinput_config_switch`. -/
def input_manager_libinput_config_switch (s : sway_state)
    (input_device : sway_input_device) : sway_state :=
  libinput_config_with libinput_config_keyboard_calls s input_device

/-- The function `input_manager_libinput_config_touch`. -/
def input_manager_libinput_config_touch (s : sway_state)
    (input_device : sway_input_device) : sway_state :=
  libinput_config_with libinput_config_touch_calls s input_device

/-- The dispatch on the type of the device that `handle_new_input` and
`input_manager_apply_input_config` share. -/
def libinput_config_device (s : sway_state) (input_device : sway_input_device) :
    sway_state :=
  if input_device.wlr_device.type = WLR_INPUT_DEVICE_POINTER
      ∨ input_device.wlr_device.type = WLR_INPUT_DEVICE_TABLET_TOOL then
    input_manager_libinput_config_pointer s input_device
  else if input_device.wlr_device.type = WLR_INPUT_DEVICE_KEYBOARD then
    input_manager_libinput_config_keyboard s input_device
  else if input_device.wlr_device.type = WLR_INPUT_DEVICE_SWITCH then
    input_manager_libinput_config_switch s input_device
  else if input_device.wlr_device.type = WLR_INPUT_DEVICE_TOUCH then
    input_manager_libinput_config_touch s input_device
  else
    s

/-! ## Seats -/

/-- Modelled from the spec: `seat_get_config` (`sway/input/seat.c`) is not part of the
source file; it gives the seat's "optional resolved seat configuration (may be
absent if unconfigured)": the stored seat rule bound to the name of the seat. -/
def seat_get_config (s : sway_state) (seat : sway_seat) : Option seat_config :=
  s.seat_configs.find? fun seat_config => decide (seat.name = seat_config.name)

/-- Modelled from the spec: `seat_config_get_attachment` (`sway/config/seat.c`) is not
part of the source file; it gives the attachment that the seat configuration
declares for the identifier, if it declares one. -/
def seat_config_get_attachment (seat_config : seat_config) (identifier : String) :
    Option seat_attachment_config :=
  seat_config.attachments.find? fun attachment => decide (attachment.identifier = identifier)

/-- Modelled from the spec: `seat_add_device` (`sway/input/seat.c`) is not part of the
source file; it puts the device in the seat's set of attached devices. -/
def seat_add_device (seat : sway_seat) (input_device : sway_input_device) : sway_seat :=
  if input_device.addr ∈ seat.devices then seat
  else { seat with devices := input_device.addr :: seat.devices }

/-- Modelled from the spec: `seat_remove_device` (`sway/input/seat.c`) is not part of
the source file; it takes the device out of the seat's set of attached devices. -/
def seat_remove_device (seat : sway_seat) (input_device : sway_input_device) : sway_seat :=
  { seat with devices := seat.devices.filter fun a => decide (a ≠ input_device.addr) }

/-- Modelled from the spec: `seat_apply_config` (`sway/input/seat.c`) is not part of
the source file; the configuration becomes the one applied to the seat.  The
registries are left as they are. -/
def seat_apply_config (seat : sway_seat) (seat_config : seat_config) : sway_seat :=
  { seat with applied_config := some seat_config }

/-- Modelled from the spec: `seat_create` (`sway/input/seat.c`) is not part of the
source file; a seat is "created lazily on first reference", with no device
attached, and enters the seat list. -/
def seat_create (s : sway_state) (seat_name : String) : sway_state :=
  { s with seats := { name := seat_name, devices := [], applied_config := none } :: s.seats }

/-- The loop of `input_manager_get_seat`: the position of the first seat of that name. -/
def input_manager_get_seat_loop (seat_name : String) : List sway_seat → Option Nat
  | [] => none
  | seat :: rest =>
    if seat.name = seat_name then some 0
    else (input_manager_get_seat_loop seat_name rest).map (· + 1)

/-- The function `input_manager_get_seat`: the state, in which the seat may have been
created, and the pointer to the seat. -/
def input_manager_get_seat (s : sway_state) (seat_name : String) (create : Bool) :
    sway_state × Option Nat :=
  match input_manager_get_seat_loop seat_name s.seats with
  | some seat => (s, some seat)
  | none => if create then (seat_create s seat_name, some 0) else (s, none)

/-- The function `input_manager_get_default_seat`. -/
def input_manager_get_default_seat (s : sway_state) : sway_state × Option Nat :=
  input_manager_get_seat s DEFAULT_SEAT true

/-- The update `f` of the object a seat pointer points to. -/
def update_seat (f : sway_seat → sway_seat) : Nat → List sway_seat → List sway_seat
  | _, [] => []
  | 0, seat :: rest => f seat :: rest
  | n + 1, seat :: rest => seat :: update_seat f n rest

/-! ## Seat assignment -/

/-- The test of the first inner loop of `input_manager_apply_seat_config`: the seat has a
configuration, and it declares a `*` attachment or one for the device. -/
def apply_seat_config_attaches (s : sway_state) (seat : sway_seat)
    (input_device : sway_input_device) : Bool :=
  match seat_get_config s seat with
  | none => false
  | some seat_config =>
    (seat_config_get_attachment seat_config "*").isSome
      || (seat_config_get_attachment seat_config input_device.identifier).isSome

/-- The list `seat_list` that `input_manager_apply_seat_config` collects for a device:
the pointers to the seats that pass the test, in the order of the seat list. -/
def apply_seat_config_seat_list (s : sway_state) (input_device : sway_input_device) :
    List Nat :=
  (s.seats.enum.filter fun p => apply_seat_config_attaches s p.2 input_device).map Prod.fst

/-- The body of the device loop of `input_manager_apply_seat_config`. -/
def apply_seat_config_device (s : sway_state) (input_device : sway_input_device) :
    sway_state :=
  let seat_list := apply_seat_config_seat_list s input_device
  if seat_list.length ≠ 0 then
    { s with
      seats := s.seats.enum.map fun p =>
        let attached := seat_list.any fun item => decide (p.1 = item)
        if attached then seat_add_device p.2 input_device
        else seat_remove_device p.2 input_device }
  else
    { s with
      seats := s.seats.map fun seat =>
        match seat_get_config s seat with
        | some seat_config =>
          if seat_config.fallback = 1 then seat_add_device seat input_device
          else seat_remove_device seat input_device
        | none => seat_remove_device seat input_device }

/-- The first part of `input_manager_apply_seat_config`: the configuration is applied to
the seats it is for.  The result is `none` when the function returns early. -/
def apply_seat_config_seats (s : sway_state) (seat_config : seat_config) :
    Option sway_state :=
  if seat_config.name = "*" then
    some { s with
      seats := s.seats.map fun seat =>
        let sc := match seat_get_config s seat with
          | some sc => sc
          | none => seat_config
        seat_apply_config seat sc }
  else
    match input_manager_get_seat s seat_config.name true with
    | (_, none) => none
    | (s, some seat) =>
      some { s with seats := update_seat (fun st => seat_apply_config st seat_config) seat s.seats }

/-- The function `input_manager_apply_seat_config`. -/
def input_manager_apply_seat_config (s : sway_state) (seat_config : seat_config) :
    sway_state :=
  match apply_seat_config_seats s seat_config with
  | none => (input_manager_get_seat s seat_config.name true).1
  | some s => s.devices.foldl apply_seat_config_device s

/-- Modelled from the spec: `new_seat_config` (`sway/config/seat.c`) is not part of the
source file; it creates a seat configuration of that name with nothing set. -/
def new_seat_config (name : String) : seat_config :=
  { name := name, fallback := -1, attachments := [] }

/-- Modelled from the spec: `merge_seat_config` (`sway/config/seat.c`) is not part of
the source file; rules are merged with "unset fields never overwriting a
previously set field", and the attachments of `source` join those of `dest`. -/
def merge_seat_config (dest source : seat_config) : seat_config :=
  { name := dest.name
    fallback := if source.fallback ≠ -1 then source.fallback else dest.fallback
    attachments :=
      dest.attachments ++ source.attachments.filter fun a => decide (a ∉ dest.attachments) }

/-- The search of `store_seat_config` for a stored rule of the same name, which is
merged with the new one: the new list and the merged rule. -/
def store_seat_config_loop (sc : seat_config) :
    List seat_config → Option (List seat_config × seat_config)
  | [] => none
  | current :: rest =>
    if current.name = sc.name then
      some (merge_seat_config current sc :: rest, merge_seat_config current sc)
    else
      (store_seat_config_loop sc rest).map fun r => (current :: r.1, r.2)

/-- Modelled from the spec: `store_seat_config` (`sway/config/seat.c`) is not part of
the source file; the rule enters the list of seat rules, merged on the rule of
the same name when there is one, and the stored rule is returned. -/
def store_seat_config (s : sway_state) (sc : seat_config) : sway_state × seat_config :=
  match store_seat_config_loop sc s.seat_configs with
  | some (seat_configs, sc) => ({ s with seat_configs := seat_configs }, sc)
  | none => ({ s with seat_configs := s.seat_configs ++ [sc] }, sc)

/-- The function `input_has_seat_fallback_configuration`. -/
def input_has_seat_fallback_configuration (s : sway_state) : Bool :=
  s.seats.any fun seat =>
    match seat_get_config s seat with
    | some seat_config => decide (seat_config.name ≠ "*") && decide (seat_config.fallback ≠ -1)
    | none => false

/-- The function `input_manager_verify_fallback_seat`. -/
def input_manager_verify_fallback_seat (s : sway_state) : sway_state :=
  if !input_has_seat_fallback_configuration s then
    match input_manager_get_default_seat s with
    | (s, seat) =>
      match seat.bind fun i => s.seats[i]? with
      | none => s
      | some seat =>
        let sc := new_seat_config seat.name
        let sc := { sc with fallback := 1 }
        match store_seat_config s sc with
        | (s, sc) => input_manager_apply_seat_config s sc
  else
    s

/-! ## Device events -/

/-- The function `input_sway_device_from_wlr`. -/
def input_sway_device_from_wlr (s : sway_state) (device : wlr_input_device) :
    Option sway_input_device :=
  s.devices.find? fun input_device => decide (input_device.wlr_device.addr = device.addr)

/-- The function `handle_device_destroy`. -/
def handle_device_destroy (s : sway_state) (device : wlr_input_device) : sway_state :=
  match input_sway_device_from_wlr s device with
  | none => s
  | some input_device =>
    { s with
      seats := s.seats.map fun seat => seat_remove_device seat input_device
      devices := s.devices.erase input_device }

/-- The test of the first seat loop of `handle_new_input`. -/
def handle_new_input_has_attachment (s : sway_state) (seat : sway_seat)
    (input_device : sway_input_device) : Bool :=
  match seat_get_config s seat with
  | none => false
  | some seat_config =>
    (seat_config_get_attachment seat_config input_device.identifier).isSome
      || (seat_config_get_attachment seat_config "*").isSome

/-- The test of the second seat loop of `handle_new_input`. -/
def handle_new_input_is_fallback (s : sway_state) (seat : sway_seat) : Bool :=
  match seat_get_config s seat with
  | none => false
  | some seat_config => decide (seat_config.fallback = 1)

/-- The second half of `handle_new_input`, from the call of
`input_manager_verify_fallback_seat` on: the device is added to the seats that
declare an attachment for it, or else to the fallback seats. -/
def handle_new_input_attach (s : sway_state) (input_device : sway_input_device) :
    sway_state :=
  let s := input_manager_verify_fallback_seat s
  let added := s.seats.any fun seat => handle_new_input_has_attachment s seat input_device
  let s := { s with
    seats := s.seats.map fun seat =>
      if handle_new_input_has_attachment s seat input_device then
        seat_add_device seat input_device
      else seat }
  if !added then
    { s with
      seats := s.seats.map fun seat =>
        if handle_new_input_is_fallback s seat then seat_add_device seat input_device
        else seat }
  else
    s

/-- The function `handle_new_input` for the backend device `device`; `addr` is the address
of the input device that `calloc` returns. -/
def handle_new_input (s : sway_state) (device : wlr_input_device) (addr : Nat) :
    sway_state :=
  let input_device : sway_input_device :=
    { addr := addr, wlr_device := device, identifier := input_device_get_identifier device }
  let s := { s with devices := input_device :: s.devices }
  let s := apply_input_type_config s input_device
  let s := libinput_config_device s input_device
  handle_new_input_attach s input_device

/-! ## Applying an input configuration to the registered devices -/

/-- Modelled from the spec: `seat_configure_device` (`sway/input/seat.c`) is not part of
the source file; it tells the seat that the configuration of the device has
changed.  The registries and the driver are left as they are. -/
def seat_configure_device (seat : sway_seat) (_input_device : sway_input_device) :
    sway_seat :=
  seat

/-- The body of the device loop of `input_manager_apply_input_config`. -/
def apply_input_config_device (input_config : input_config) (s : sway_state)
    (input_device : sway_input_device) : sway_state :=
  let wildcard := decide (input_config.identifier = "*")
  let type_wildcard := decide (input_config.identifier.data.take 5 = "type:".data)
  let type_matches := type_wildcard
    && decide (input_device_get_type input_device = str_offset input_config.identifier 5)
  if input_device.identifier = input_config.identifier ∨ wildcard = true
      ∨ type_matches = true then
    let s := libinput_config_device s input_device
    { s with seats := s.seats.map fun seat => seat_configure_device seat input_device }
  else
    s

/-- The function `input_manager_apply_input_config`. -/
def input_manager_apply_input_config (s : sway_state) (input_config : input_config) :
    sway_state :=
  s.devices.foldl (apply_input_config_device input_config) s

/-! ## The driver -/

/-- The configuration that libinput holds for one device, field by field. -/
structure libinput_config_state where
  accel_profile : Int
  click_method : Int
  drag : Int
  drag_lock : Int
  dwt : Int
  left_handed : Int
  middle_emulation : Int
  natural_scroll : Int
  pointer_accel : Nat
  scroll_button : Int
  scroll_method : Int
  send_events : Int
  tap : Int
  tap_button_map : Int
  calibration_matrix : List Nat
  deriving DecidableEq, Repr

/-- The `struct libinput_device` as the source sees it: `config` is what the getters
`libinput_device_config_*_get_*` report as current, `defaults` what the
getters `libinput_device_config_*_get_default_*` report. -/
structure libinput_device where
  config : libinput_config_state
  defaults : libinput_config_state
  deriving DecidableEq, Repr

/-- The effect of a setter call on the configuration of the device: the call overwrites
its field and leaves the others. -/
def libinput_config_state.set (st : libinput_config_state) :
    libinput_device_config → libinput_config_state
  | .accel_set_profile v => { st with accel_profile := v }
  | .click_set_method v => { st with click_method := v }
  | .tap_set_drag_enabled v => { st with drag := v }
  | .tap_set_drag_lock_enabled v => { st with drag_lock := v }
  | .dwt_set_enabled v => { st with dwt := v }
  | .left_handed_set v => { st with left_handed := v }
  | .middle_emulation_set_enabled v => { st with middle_emulation := v }
  | .scroll_set_natural_scroll_enabled v => { st with natural_scroll := v }
  | .accel_set_speed v => { st with pointer_accel := v }
  | .scroll_set_button v => { st with scroll_button := v }
  | .scroll_set_method v => { st with scroll_method := v }
  | .send_events_set_mode v => { st with send_events := v }
  | .tap_set_enabled v => { st with tap := v }
  | .tap_set_button_map v => { st with tap_button_map := v }
  | .calibration_set_matrix m => { st with calibration_matrix := m }

/-- The configuration of the device after a sequence of setter calls. -/
def libinput_config_state.run (st : libinput_config_state)
    (calls : List libinput_device_config) : libinput_config_state :=
  calls.foldl libinput_config_state.set st

/-! ## Resetting a device to the defaults of the driver -/

/-- The setter calls of `input_manager_libinput_reset_pointer`, in the order of the
source, each with the value that the getter of the source returns. -/
def libinput_reset_pointer_calls (libinput_device : libinput_device) :
    List libinput_device_config :=
  [ .accel_set_profile libinput_device.defaults.accel_profile,
    .click_set_method libinput_device.defaults.click_method,
    .tap_set_drag_enabled libinput_device.defaults.drag,
    .tap_set_drag_lock_enabled libinput_device.defaults.drag_lock,
    .dwt_set_enabled libinput_device.defaults.dwt,
    .left_handed_set libinput_device.defaults.left_handed,
    .middle_emulation_set_enabled libinput_device.defaults.middle_emulation,
    .scroll_set_natural_scroll_enabled libinput_device.defaults.natural_scroll,
    .accel_set_speed libinput_device.defaults.pointer_accel,
    .scroll_set_button libinput_device.defaults.scroll_button,
    .scroll_set_method libinput_device.defaults.scroll_method,
    .send_events_set_mode libinput_device.defaults.send_events,
    .tap_set_enabled libinput_device.defaults.tap,
    .tap_set_button_map libinput_device.config.tap_button_map ]

/-- The setter call of `input_manager_libinput_reset_keyboard` and of
`input_manager_libinput_reset_switch`. -/
def libinput_reset_keyboard_calls (libinput_device : libinput_device) :
    List libinput_device_config :=
  [ .send_events_set_mode libinput_device.defaults.send_events ]

/-- The setter calls of `input_manager_libinput_reset_touch`. -/
def libinput_reset_touch_calls (libinput_device : libinput_device) :
    List libinput_device_config :=
  [ .send_events_set_mode libinput_device.defaults.send_events,
    .calibration_set_matrix libinput_device.defaults.calibration_matrix ]

/-- The common frame of the four functions `input_manager_libinput_reset_*`: nothing
happens on a device that is not a libinput device; otherwise the calls are made
on the device.  The argument `wlr_libinput_get_device_handle` gives the
libinput device of a backend device. -/
def libinput_reset_with (calls : libinput_device → List libinput_device_config)
    (wlr_libinput_get_device_handle : wlr_input_device → libinput_device)
    (s : sway_state) (input_device : sway_input_device) : sway_state :=
  if !input_device.wlr_device.is_libinput then s
  else
    let libinput_device := wlr_libinput_get_device_handle input_device.wlr_device
    { s with
      libinput_calls :=
        s.libinput_calls
          ++ (calls libinput_device).map fun c => (input_device.wlr_device.addr, c) }

/-- The function `input_manager_libinput_reset_pointer`. -/
def input_manager_libinput_reset_pointer
    (wlr_libinput_get_device_handle : wlr_input_device → libinput_device)
    (s : sway_state) (input_device : sway_input_device) : sway_state :=
  libinput_reset_with libinput_reset_pointer_calls wlr_libinput_get_device_handle s
    input_device

/-- The function `input_manager_libinput_reset_keyboard`. -/
def input_manager_libinput_reset_keyboard
    (wlr_libinput_get_device_handle : wlr_input_device → libinput_device)
    (s : sway_state) (input_device : sway_input_device) : sway_state :=
  libinput_reset_with libinput_reset_keyboard_calls wlr_libinput_get_device_handle s
    input_device

/-- The function `input_manager_libinput_reset_switch`. -/
def input_manager_libinput_reset_switch
    (wlr_libinput_get_device_handle : wlr_input_device → libinput_device)
    (s : sway_state) (input_device : sway_input_device) : sway_state :=
  libinput_reset_with libinput_reset_keyboard_calls wlr_libinput_get_device_handle s
    input_device

/-- The function `input_manager_libinput_reset_touch`. -/
def input_manager_libinput_reset_touch
    (wlr_libinput_get_device_handle : wlr_input_device → libinput_device)
    (s : sway_state) (input_device : sway_input_device) : sway_state :=
  libinput_reset_with libinput_reset_touch_calls wlr_libinput_get_device_handle s
    input_device

/-- Modelled from the spec: `seat_reset_device` (`sway/input/seat.c`) is not part of the
source file; it tells the seat that the device went back to its defaults.  The
registries and the driver are left as they are. -/
def seat_reset_device (seat : sway_seat) (_input_device : sway_input_device) : sway_seat :=
  seat

/-- The function `input_manager_reset_input`. -/
def input_manager_reset_input
    (wlr_libinput_get_device_handle : wlr_input_device → libinput_device)
    (s : sway_state) (input_device : sway_input_device) : sway_state :=
  let s :=
    if input_device.wlr_device.type = WLR_INPUT_DEVICE_POINTER
        ∨ input_device.wlr_device.type = WLR_INPUT_DEVICE_TABLET_TOOL then
      input_manager_libinput_reset_pointer wlr_libinput_get_device_handle s input_device
    else if input_device.wlr_device.type = WLR_INPUT_DEVICE_KEYBOARD then
      input_manager_libinput_reset_keyboard wlr_libinput_get_device_handle s input_device
    else if input_device.wlr_device.type = WLR_INPUT_DEVICE_SWITCH then
      input_manager_libinput_reset_switch wlr_libinput_get_device_handle s input_device
    else if input_device.wlr_device.type = WLR_INPUT_DEVICE_TOUCH then
      input_manager_libinput_reset_touch wlr_libinput_get_device_handle s input_device
    else
      s
  { s with seats := s.seats.map fun seat => seat_reset_device seat input_device }

/-- The function `input_manager_reset_all_inputs`. -/
def input_manager_reset_all_inputs
    (wlr_libinput_get_device_handle : wlr_input_device → libinput_device)
    (s : sway_state) : sway_state :=
  s.devices.foldl (input_manager_reset_input wlr_libinput_get_device_handle) s

/-! ## Storing an input rule -/

/-- The precedence of the configuration resolver as the specification words it: the
rule whose identifier is the device's; otherwise the first rule `type:<kind>`
for the kind of the device; otherwise the `*` rule (the last one, should
several be stored); otherwise no configuration. -/
def resolve_by_precedence (s : sway_state) (device : sway_input_device) :
    Option input_config :=
  match s.input_configs.find? fun ic => decide (ic.identifier = device.identifier) with
  | some exact => some exact
  | none =>
    match s.input_type_configs.find? fun ic =>
        decide (ic.identifier = "type:" ++ input_device_get_type device) with
    | some type_rule => some type_rule
    | none => (s.input_configs.filter fun ic => decide (ic.identifier = "*")).getLast?

/-- The integer fields of an input configuration; each is unset when it holds
`INT_MIN`. -/
def input_config_int_fields : List (input_config → Int) :=
  [ input_config.accel_profile, input_config.click_method, input_config.drag,
    input_config.drag_lock, input_config.dwt, input_config.left_handed,
    input_config.middle_emulation, input_config.natural_scroll,
    input_config.scroll_button, input_config.scroll_method, input_config.send_events,
    input_config.tap, input_config.tap_button_map ]

/-- The merge of an exact rule `e` and a type rule `t` in the words of the
specification, on every field of the merged rule `m`: a field set in `e` has
the value of `e`; a field unset in `e` and set in `t` has the value of `t`; a
field unset in both is unset. -/
def merged_fieldwise (m e t : input_config) : Prop :=
  (∀ f ∈ input_config_int_fields,
    (f e ≠ INT_MIN → f m = f e)
    ∧ (f e = INT_MIN → f t ≠ INT_MIN → f m = f t)
    ∧ (f e = INT_MIN → f t = INT_MIN → f m = INT_MIN))
  ∧ (e.pointer_accel ≠ FLT_MIN → m.pointer_accel = e.pointer_accel)
  ∧ (e.pointer_accel = FLT_MIN → t.pointer_accel ≠ FLT_MIN →
      m.pointer_accel = t.pointer_accel)
  ∧ (e.pointer_accel = FLT_MIN → t.pointer_accel = FLT_MIN → m.pointer_accel = FLT_MIN)
  ∧ (e.calibration_matrix.configured = true → m.calibration_matrix = e.calibration_matrix)
  ∧ (e.calibration_matrix.configured = false → t.calibration_matrix.configured = true →
      m.calibration_matrix = t.calibration_matrix)
  ∧ (e.calibration_matrix.configured = false → t.calibration_matrix.configured = false →
      m.calibration_matrix.configured = false)

/-! ## The outcome of the seat assignment, seat by seat -/

/-- The seat of that name has a configuration, and it declares a `*` attachment or an
attachment for the identifier. -/
def seat_rule_attaches (seat_configs : List seat_config) (name identifier : String) : Bool :=
  match seat_configs.find? fun seat_config => decide (name = seat_config.name) with
  | none => false
  | some seat_config =>
    (seat_config_get_attachment seat_config "*").isSome
      || (seat_config_get_attachment seat_config identifier).isSome

/-- The seat of that name has a configuration with `fallback` true. -/
def seat_rule_fallback (seat_configs : List seat_config) (name : String) : Bool :=
  match seat_configs.find? fun seat_config => decide (name = seat_config.name) with
  | none => false
  | some seat_config => decide (seat_config.fallback = 1)

/-- Whether the device loop of `input_manager_apply_seat_config` attaches a device of
that identifier to the seat `name`, given the names of all seats: by the
attachment rules when some seat claims the device, by the fallback flag
otherwise. -/
def reconciled_attachment (seat_configs : List seat_config) (names : List String)
    (identifier name : String) : Bool :=
  if names.any fun n => seat_rule_attaches seat_configs n identifier then
    seat_rule_attaches seat_configs name identifier
  else
    seat_rule_fallback seat_configs name

/-- What the device loop of `input_manager_apply_seat_config` does to one seat for one
device. -/
def reconcile_seat (seat_configs : List seat_config) (names : List String)
    (seat : sway_seat) (input_device : sway_input_device) : sway_seat :=
  if reconciled_attachment seat_configs names input_device.identifier seat.name then
    seat_add_device seat input_device
  else
    seat_remove_device seat input_device

/-- The names of the seats that hold the device at that address. -/
def seats_holding (s : sway_state) (addr : Nat) : List String :=
  (s.seats.filter fun seat => decide (addr ∈ seat.devices)).map sway_seat.name

/-- The seat's configuration declares an attachment for the identifier or a `*`
attachment. -/
def seat_declares_attachment (s : sway_state) (seat : sway_seat) (identifier : String) :
    Prop :=
  ∃ seat_config, seat_get_config s seat = some seat_config
    ∧ ∃ attachment ∈ seat_config.attachments,
        attachment.identifier = identifier ∨ attachment.identifier = "*"

/-- The seat's configuration has `fallback` true. -/
def seat_has_fallback (s : sway_state) (seat : sway_seat) : Prop :=
  ∃ seat_config, seat_get_config s seat = some seat_config ∧ seat_config.fallback = 1

/-! ## The fields of a configuration that the driver takes -/

/-- The fields of an input configuration for which libinput has a setter. -/
inductive config_field where
  | accel_profile
  | click_method
  | drag
  | drag_lock
  | dwt
  | left_handed
  | middle_emulation
  | natural_scroll
  | pointer_accel
  | scroll_button
  | scroll_method
  | send_events
  | tap
  | tap_button_map
  | calibration_matrix
  deriving DecidableEq, Repr

/-- The field that a setter call writes. -/
def libinput_device_config.field : libinput_device_config → config_field
  | .accel_set_profile _ => .accel_profile
  | .click_set_method _ => .click_method
  | .tap_set_drag_enabled _ => .drag
  | .tap_set_drag_lock_enabled _ => .drag_lock
  | .dwt_set_enabled _ => .dwt
  | .left_handed_set _ => .left_handed
  | .middle_emulation_set_enabled _ => .middle_emulation
  | .scroll_set_natural_scroll_enabled _ => .natural_scroll
  | .accel_set_speed _ => .pointer_accel
  | .scroll_set_button _ => .scroll_button
  | .scroll_set_method _ => .scroll_method
  | .send_events_set_mode _ => .send_events
  | .tap_set_enabled _ => .tap
  | .tap_set_button_map _ => .tap_button_map
  | .calibration_set_matrix _ => .calibration_matrix

/-- Whether the field is set in the configuration. -/
def input_config.is_set (ic : input_config) : config_field → Bool
  | .accel_profile => decide (ic.accel_profile ≠ INT_MIN)
  | .click_method => decide (ic.click_method ≠ INT_MIN)
  | .drag => decide (ic.drag ≠ INT_MIN)
  | .drag_lock => decide (ic.drag_lock ≠ INT_MIN)
  | .dwt => decide (ic.dwt ≠ INT_MIN)
  | .left_handed => decide (ic.left_handed ≠ INT_MIN)
  | .middle_emulation => decide (ic.middle_emulation ≠ INT_MIN)
  | .natural_scroll => decide (ic.natural_scroll ≠ INT_MIN)
  | .pointer_accel => decide (ic.pointer_accel ≠ FLT_MIN)
  | .scroll_button => decide (ic.scroll_button ≠ INT_MIN)
  | .scroll_method => decide (ic.scroll_method ≠ INT_MIN)
  | .send_events => decide (ic.send_events ≠ INT_MIN)
  | .tap => decide (ic.tap ≠ INT_MIN)
  | .tap_button_map => decide (ic.tap_button_map ≠ INT_MIN)
  | .calibration_matrix => ic.calibration_matrix.configured

/-- The setter call that hands the driver the value of the field in the
configuration. -/
def input_config.push (ic : input_config) : config_field → libinput_device_config
  | .accel_profile => .accel_set_profile ic.accel_profile
  | .click_method => .click_set_method ic.click_method
  | .drag => .tap_set_drag_enabled ic.drag
  | .drag_lock => .tap_set_drag_lock_enabled ic.drag_lock
  | .dwt => .dwt_set_enabled ic.dwt
  | .left_handed => .left_handed_set ic.left_handed
  | .middle_emulation => .middle_emulation_set_enabled ic.middle_emulation
  | .natural_scroll => .scroll_set_natural_scroll_enabled ic.natural_scroll
  | .pointer_accel => .accel_set_speed ic.pointer_accel
  | .scroll_button => .scroll_set_button ic.scroll_button
  | .scroll_method => .scroll_set_method ic.scroll_method
  | .send_events => .send_events_set_mode ic.send_events
  | .tap => .tap_set_enabled ic.tap
  | .tap_button_map => .tap_set_button_map ic.tap_button_map
  | .calibration_matrix => .calibration_set_matrix ic.calibration_matrix.matrix

/-- The field set of pointers and tablet tools, in the order of the source. -/
def pointer_fields : List config_field :=
  [ .accel_profile, .click_method, .drag, .drag_lock, .dwt, .left_handed,
    .middle_emulation, .natural_scroll, .pointer_accel, .scroll_button, .scroll_method,
    .send_events, .tap, .tap_button_map ]

/-- The field set of each kind of device: the 14 pointer fields for pointers and tablet
tools, send-events for keyboards and switches, send-events and the calibration
matrix for touch devices, nothing for tablet pads. -/
def device_fields : wlr_input_device_type → List config_field
  | WLR_INPUT_DEVICE_POINTER => pointer_fields
  | WLR_INPUT_DEVICE_TABLET_TOOL => pointer_fields
  | WLR_INPUT_DEVICE_KEYBOARD => [.send_events]
  | WLR_INPUT_DEVICE_SWITCH => [.send_events]
  | WLR_INPUT_DEVICE_TOUCH => [.send_events, .calibration_matrix]
  | WLR_INPUT_DEVICE_TABLET_PAD => []

/-- The value that the driver reports for the field in one of its configurations,
as the setter call that would write it. -/
def libinput_config_state.push (st : libinput_config_state) :
    config_field → libinput_device_config
  | .accel_profile => .accel_set_profile st.accel_profile
  | .click_method => .click_set_method st.click_method
  | .drag => .tap_set_drag_enabled st.drag
  | .drag_lock => .tap_set_drag_lock_enabled st.drag_lock
  | .dwt => .dwt_set_enabled st.dwt
  | .left_handed => .left_handed_set st.left_handed
  | .middle_emulation => .middle_emulation_set_enabled st.middle_emulation
  | .natural_scroll => .scroll_set_natural_scroll_enabled st.natural_scroll
  | .pointer_accel => .accel_set_speed st.pointer_accel
  | .scroll_button => .scroll_set_button st.scroll_button
  | .scroll_method => .scroll_set_method st.scroll_method
  | .send_events => .send_events_set_mode st.send_events
  | .tap => .tap_set_enabled st.tap
  | .tap_button_map => .tap_set_button_map st.tap_button_map
  | .calibration_matrix => .calibration_set_matrix st.calibration_matrix

/-- The state after the setter calls have been made on the backend device at that
address. -/
def push_calls (s : sway_state) (addr : Nat) (calls : List libinput_device_config) :
    sway_state :=
  { s with libinput_calls := s.libinput_calls ++ calls.map fun c => (addr, c) }

/-- The setter calls that applying the configuration of a device is to make: for a
libinput device with a resolved configuration, one call for each field of the
field set of its kind that is set in the configuration, with the value of the
configuration; no call otherwise. -/
def config_calls (s : sway_state) (input_device : sway_input_device) :
    List libinput_device_config :=
  match input_device_get_config s input_device with
  | none => []
  | some ic =>
    if input_device.wlr_device.is_libinput then
      ((device_fields input_device.wlr_device.type).filter ic.is_set).map ic.push
    else []

/-- The setter calls that `input_manager_reset_input` makes on a libinput device: one for
each field of the field set of its kind, with the default of the driver, except
that the tap button map is written with the value the driver currently
holds. -/
def reset_calls (libinput_device : libinput_device) (type : wlr_input_device_type) :
    List libinput_device_config :=
  (device_fields type).map fun f =>
    if f = config_field.tap_button_map then libinput_device.config.push f
    else libinput_device.defaults.push f

/-- The setter calls of a history of driver calls that were made on the backend device at
that address, oldest first. -/
def calls_on (addr : Nat) (libinput_calls : List (Nat × libinput_device_config)) :
    List libinput_device_config :=
  (libinput_calls.filter fun p => decide (p.1 = addr)).map Prod.snd

/-- The state after the driver calls of a trace have been made. -/
def append_calls (s : sway_state) (trace : List (Nat × libinput_device_config)) :
    sway_state :=
  { s with libinput_calls := s.libinput_calls ++ trace }

/-- Whether `input_manager_apply_input_config` applies to the device for that
configuration: the identifiers are equal, the configuration is `*`, or it is
`type:<kind>` for the kind of the device. -/
def apply_input_config_matches (input_config : input_config)
    (input_device : sway_input_device) : Bool :=
  decide (input_device.identifier = input_config.identifier)
    || decide (input_config.identifier = "*")
    || (decide (input_config.identifier.data.take 5 = "type:".data)
        && decide (input_device_get_type input_device = str_offset input_config.identifier 5))

/-- The driver calls that `input_manager_apply_input_config` is to make: for each device
it applies to, in the order of the device list, the calls for the resolved
configuration of the device. -/
def apply_input_config_trace (s : sway_state) (input_config : input_config)
    (devices : List sway_input_device) : List (Nat × libinput_device_config) :=
  devices.flatMap fun d =>
    if apply_input_config_matches input_config d then
      (config_calls s d).map fun c => (d.wlr_device.addr, c)
    else []

/-! ## Concrete devices, rule sets and states -/

/-- A libinput pointer of vendor 1, product 2 and name "Foo Bar". -/
def foo_bar : wlr_input_device :=
  { addr := 7, type := WLR_INPUT_DEVICE_POINTER, vendor := 1, product := 2,
    name := "Foo Bar", is_libinput := true, tap_finger_count := 0 }

/-- The input device of `foo_bar`, allocated at address 100. -/
def foo_bar_device : sway_input_device :=
  { addr := 100, identifier := "1:2:Foo_Bar", wlr_device := foo_bar }

/-- The state with no device, no seat and no rule. -/
def empty_state : sway_state :=
  { devices := [], seats := [], input_configs := [], input_type_configs := [],
    seat_configs := [], libinput_calls := [] }

/-- The three rules `*` with `send_events` set, `type:pointer` with `accel_profile` set
and `1:2:Foo_Bar` with `accel_profile` set, with the `*` rule stored before or
after the exact rule. -/
def precedence_rules (disabled flat adaptive : Int) (wildcard_first : Bool) : sway_state :=
  let wildcard := { new_input_config "*" with send_events := disabled }
  let exact := { new_input_config "1:2:Foo_Bar" with accel_profile := adaptive }
  { empty_state with
    input_configs := if wildcard_first then [wildcard, exact] else [exact, wildcard]
    input_type_configs := [{ new_input_config "type:pointer" with accel_profile := flat }] }

/-- The seat rule of that name that declares an attachment for each of the
identifiers. -/
def seat_rule (name : String) (fallback : Int) (identifiers : List String) : seat_config :=
  { name := name, fallback := fallback,
    attachments := identifiers.map fun identifier => { identifier := identifier } }

/-- The device `1:2:Foo_Bar` is attached to seat `A`; the rules now attach it to seat `B`
only. -/
def replace_state : sway_state :=
  { empty_state with
    devices := [foo_bar_device]
    seats := [{ name := "A", devices := [100], applied_config := none },
              { name := "B", devices := [], applied_config := none }]
    seat_configs := [seat_rule "A" (-1) [], seat_rule "B" (-1) ["1:2:Foo_Bar"]] }

/-- The device `1:2:Foo_Bar` is attached to seat `A`, whose rule declares no attachment;
seat `F` is the fallback seat. -/
def fallback_state : sway_state :=
  { empty_state with
    devices := [foo_bar_device]
    seats := [{ name := "A", devices := [100], applied_config := none },
              { name := "F", devices := [], applied_config := none }]
    seat_configs := [seat_rule "A" 0 [], seat_rule "F" 1 []] }

/-- The device `1:2:Foo_Bar` is attached to seat `A`, whose rule declares no attachment
and has `fallback` false; there is no other seat. -/
def orphan_state : sway_state :=
  { empty_state with
    devices := [foo_bar_device]
    seats := [{ name := "A", devices := [100], applied_config := none }]
    seat_configs := [seat_rule "A" 0 []] }

/-- The seat `seat0` holds the device `1:2:Foo_Bar`, and its rule sets `fallback` to
false. -/
def no_fallback_state : sway_state :=
  { empty_state with
    devices := [foo_bar_device]
    seats := [{ name := "seat0", devices := [100], applied_config := none }]
    seat_configs := [seat_rule "seat0" 0 []] }

/-- A state with zero seats, zero seat configurations and zero devices; the input rules
and the history of driver calls are arbitrary. -/
def initial_state (input_configs input_type_configs : List input_config)
    (libinput_calls : List (Nat × libinput_device_config)) : sway_state :=
  { devices := [], seats := [], input_configs := input_configs,
    input_type_configs := input_type_configs, seat_configs := [],
    libinput_calls := libinput_calls }

/-- A second libinput device, a keyboard. -/
def keyboard : wlr_input_device :=
  { addr := 8, type := WLR_INPUT_DEVICE_KEYBOARD, vendor := 3, product := 4,
    name := "Keys", is_libinput := true, tap_finger_count := 0 }

/-- The input device of `keyboard`, allocated at address 101. -/
def keyboard_device : sway_input_device :=
  { addr := 101, identifier := "3:4:Keys", wlr_device := keyboard }

/-- Two devices and two seats: seat `A` holds both devices, seat `B` the pointer. -/
def two_device_state : sway_state :=
  { empty_state with
    devices := [keyboard_device, foo_bar_device]
    seats := [{ name := "A", devices := [101, 100], applied_config := none },
              { name := "B", devices := [100], applied_config := none }] }

/-- Three seats, of which `B` has a rule of its own, and the `*` seat rule stored next to
the rule of `B`; seat `A` holds the device `1:2:Foo_Bar`. -/
def wildcard_state : sway_state :=
  { empty_state with
    devices := [foo_bar_device]
    seats := [{ name := "A", devices := [100], applied_config := none },
              { name := "B", devices := [], applied_config := none },
              { name := "C", devices := [], applied_config := none }]
    seat_configs := [seat_rule "*" 1 [], seat_rule "B" (-1) ["1:2:Foo_Bar"]] }

/-- A driver configuration with every field 0 but the tap button map. -/
def driver_config (tap_button_map : Int) : libinput_config_state :=
  { accel_profile := 0, click_method := 0, drag := 0, drag_lock := 0, dwt := 0,
    left_handed := 0, middle_emulation := 0, natural_scroll := 0, pointer_accel := 0,
    scroll_button := 0, scroll_method := 0, send_events := 0, tap := 0,
    tap_button_map := tap_button_map, calibration_matrix := [0, 0, 0, 0, 0, 0] }

/-- A driver whose devices have the tap button map set to 1 (left, middle, right), the
default being 0 (left, right, middle). -/
def lmr_driver (_device : wlr_input_device) : libinput_device :=
  { config := driver_config 1, defaults := driver_config 0 }

/-- The rules `*` -> send_events and `1:2:Foo_Bar` -> accel_profile=2, stored with two type
rules: `type:keyboard`, first in the list, and `type:pointer`, which set the
click method to different values. -/
def typed_rules : sway_state :=
  { empty_state with
    input_configs := [{ new_input_config "*" with send_events := 1 },
                      { new_input_config "1:2:Foo_Bar" with accel_profile := 2 }]
    input_type_configs := [{ new_input_config "type:keyboard" with click_method := 9 },
                           { new_input_config "type:pointer" with
                             accel_profile := 1, click_method := 1 }] }

/-- A list is what is left after `rdropWhile`, followed by what `rtakeWhile` takes. -/
theorem rdropWhile_append_rtakeWhile {α : Type} (p : α → Bool) (l : List α) :
    l.rdropWhile p ++ l.rtakeWhile p = l := by
  have h := List.takeWhile_append_dropWhile p l.reverse
  have h2 := congrArg List.reverse h
  rw [List.reverse_append, List.reverse_reverse] at h2
  exact h2

/-- Stripping splits the name into leading whitespace, the stripped name and trailing
whitespace; the stripped name neither starts nor ends with whitespace. -/
theorem strip_whitespace_spec (str : String) :
    ∃ pre post : List Char,
      str.data = pre ++ (strip_whitespace str).data ++ post
      ∧ (∀ c ∈ pre, is_whitespace c = true)
      ∧ (∀ c ∈ post, is_whitespace c = true)
      ∧ (∀ c, (strip_whitespace str).data.head? = some c → is_whitespace c = false)
      ∧ (∀ c, (strip_whitespace str).data.getLast? = some c → is_whitespace c = false) := by
  refine ⟨str.data.takeWhile is_whitespace,
    (str.data.dropWhile is_whitespace).rtakeWhile is_whitespace, ?_, ?_, ?_, ?_, ?_⟩
  · simp only [strip_whitespace]
    rw [List.append_assoc, rdropWhile_append_rtakeWhile, List.takeWhile_append_dropWhile]
  · intro c hc
    exact (List.mem_takeWhile_imp hc)
  · intro c hc
    exact List.mem_rtakeWhile_imp hc
  · intro c hc
    simp only [strip_whitespace] at hc
    obtain ⟨t, ht⟩ := List.rdropWhile_prefix is_whitespace (l := str.data.dropWhile is_whitespace)
    cases hn : (str.data.dropWhile is_whitespace).rdropWhile is_whitespace with
    | nil => rw [hn] at hc; simp at hc
    | cons a as =>
      rw [hn] at hc ht
      simp at hc
      subst hc
      have h1 := List.head?_dropWhile_not is_whitespace str.data
      rw [← ht] at h1
      simpa using h1
  · intro c hc
    simp only [strip_whitespace] at hc
    by_cases hn : (str.data.dropWhile is_whitespace).rdropWhile is_whitespace = []
    · rw [hn] at hc; simp at hc
    · have h1 := List.rdropWhile_last_not is_whitespace _ hn
      rw [List.getLast?_eq_getLast _ hn] at hc
      simp only [Option.some.injEq] at hc
      rw [hc] at h1
      simpa using h1

/-- The format `%d` prints an `int` in decimal, with a minus sign when it is negative. -/
theorem toString_int_decimal (v : Int) :
    toString v = (if v < 0 then "-" else "") ++ String.mk (Nat.toDigits 10 v.natAbs) := by
  cases v with
  | ofNat n =>
    have : ¬ ((Int.ofNat n) < 0) := by simp
    rw [if_neg this]
    show Nat.repr n = "" ++ String.mk (Nat.toDigits 10 n)
    simp [Nat.repr, List.asString]
  | negSucc n =>
    have : (Int.negSucc n) < 0 := Int.negSucc_lt_zero n
    rw [if_pos this]
    show "-" ++ Nat.repr (n + 1) = "-" ++ String.mk (Nat.toDigits 10 (n + 1))
    simp [Nat.repr, List.asString]

/-- C7: for every vendor id, product id and device name, `input_device_get_identifier`
returns `<vendor>:<product>:<n>` with vendor and product in decimal, where `n`
is the name with the surrounding whitespace stripped and every space replaced
by an underscore, all other characters unchanged; the result depends on that
triple only; and for vendor 1, product 2 and name "Foo Bar" it is
"1:2:Foo_Bar". -/
theorem input_device_get_identifier_spec (device : wlr_input_device) :
    (∃ pre n post : List Char,
      device.name.data = pre ++ n ++ post
      ∧ (∀ c ∈ pre, is_whitespace c = true)
      ∧ (∀ c ∈ post, is_whitespace c = true)
      ∧ (∀ c, n.head? = some c → is_whitespace c = false)
      ∧ (∀ c, n.getLast? = some c → is_whitespace c = false)
      ∧ input_device_get_identifier device =
          ((if device.vendor < 0 then "-" else "")
              ++ String.mk (Nat.toDigits 10 device.vendor.natAbs))
            ++ ":"
            ++ ((if device.product < 0 then "-" else "")
              ++ String.mk (Nat.toDigits 10 device.product.natAbs))
            ++ ":"
            ++ String.mk (n.map fun c => if c = ' ' then '_' else c))
    ∧ (∀ other : wlr_input_device,
        other.vendor = device.vendor → other.product = device.product →
        other.name = device.name →
        input_device_get_identifier other = input_device_get_identifier device)
    ∧ (device.vendor = 1 → device.product = 2 → device.name = "Foo Bar" →
        input_device_get_identifier device = "1:2:Foo_Bar") := by
  refine ⟨?_, ?_, ?_⟩
  · obtain ⟨pre, post, h1, h2, h3, h4, h5⟩ := strip_whitespace_spec device.name
    refine ⟨pre, (strip_whitespace device.name).data, post, h1, h2, h3, h4, h5, ?_⟩
    simp only [input_device_get_identifier, replace_spaces, toString_int_decimal]
  · intro other hv hp hn
    simp only [input_device_get_identifier, hv, hp, hn]
  · intro hv hp hn
    simp only [input_device_get_identifier, hv, hp, hn]
    decide

/-- The identifier of a device of vendor 1, product 2 and name "Foo Bar". -/
theorem input_device_get_identifier_spec_witness :
    input_device_get_identifier
      { addr := 7, type := WLR_INPUT_DEVICE_POINTER, vendor := 1, product := 2,
        name := "Foo Bar", is_libinput := true, tap_finger_count := 0 } = "1:2:Foo_Bar" :=
  (input_device_get_identifier_spec
    { addr := 7, type := WLR_INPUT_DEVICE_POINTER, vendor := 1, product := 2,
      name := "Foo Bar", is_libinput := true, tap_finger_count := 0 }).2.2 rfl rfl rfl

/-! ## Theorems: the configuration resolver -/

/-- Skipping the five characters of `type:` leaves the kind. -/
theorem str_offset_type (kind : String) : str_offset ("type:" ++ kind) 5 = kind := by
  simp [str_offset, String.data_append]

/-- On a rule named `type:<kind>`, the comparison past the prefix is a comparison of the
whole identifier. -/
theorem str_offset_eq_iff (identifier device_type : String)
    (h : ∃ kind, identifier = "type:" ++ kind) :
    str_offset identifier 5 = device_type ↔ identifier = "type:" ++ device_type := by
  obtain ⟨kind, rfl⟩ := h
  rw [str_offset_type]
  constructor
  · intro h; rw [h]
  · intro h
    have h2 := congrArg (fun x => str_offset x 5) h
    simpa [str_offset_type] using h2

/-- The search for a type rule is a search for the rule named `type:<kind>`. -/
theorem find_type_config_eq (device_type : String) (l : List input_config)
    (htype : ∀ ic ∈ l, ∃ kind, ic.identifier = "type:" ++ kind) :
    find_type_config device_type l
      = l.find? fun ic => decide (ic.identifier = "type:" ++ device_type) := by
  induction l with
  | nil => rfl
  | cons ic rest ih =>
    have hic := str_offset_eq_iff ic.identifier device_type (htype ic (by simp))
    have ih2 := ih (fun x hx => htype x (by simp [hx]))
    by_cases h : str_offset ic.identifier 5 = device_type
    · have h4 : decide (ic.identifier = "type:" ++ device_type) = true :=
        decide_eq_true (hic.mp h)
      rw [find_type_config, if_pos h, List.find?_cons, h4]
    · have h3 : decide (ic.identifier = "type:" ++ device_type) = false :=
        decide_eq_false (fun h4 => h (hic.mpr h4))
      rw [find_type_config, if_neg h, List.find?_cons, h3, ih2]

/-- The first loop of `input_device_get_config` returns the first rule of the device's
identifier; without one, it ends with the last `*` rule seen, or with the
initial value of `wildcard_config`. -/
theorem input_device_get_config_loop_eq (identifier : String) (l : List input_config)
    (w : Option input_config) :
    input_device_get_config_loop identifier l w
      = match l.find? fun ic => decide (ic.identifier = identifier) with
        | some exact => Sum.inl exact
        | none =>
          Sum.inr (((l.filter fun ic => decide (ic.identifier = "*")).getLast?).or w) := by
  induction l generalizing w with
  | nil => simp [input_device_get_config_loop]
  | cons ic rest ih =>
    by_cases h : ic.identifier = identifier
    · simp [input_device_get_config_loop, h]
    · by_cases hs : ic.identifier = "*"
      · simp only [input_device_get_config_loop, h, hs, if_false, if_true, ih]
        have h5 : ¬ ("*" = identifier) := fun h6 => h (hs.trans h6)
        simp only [List.find?_cons, hs, h5, decide_False, decide_True, List.filter_cons,
          if_true]
        cases hf : rest.find? fun ic => decide (ic.identifier = identifier) with
        | some e => rfl
        | none =>
          simp only
          cases hr : rest.filter fun ic => decide (ic.identifier = "*") with
          | nil => simp
          | cons a as =>
            rw [List.getLast?_cons_cons, List.getLast?_eq_getLast _ (List.cons_ne_nil a as)]
            rfl
      · simp only [input_device_get_config_loop, h, hs, if_false, ih]
        simp only [List.find?_cons, h, hs, decide_False, List.filter_cons]
        rfl

/-- C9: `input_device_get_config` returns the rule whose identifier is the device's if
there is one, wherever a `*` rule sits; otherwise the first rule `type:<kind>`
for the kind of the device; otherwise the `*` rule if there is one; and it
returns no configuration exactly when there is no rule of the device's
identifier, no rule for its kind and no `*` rule.  The rules of
`input_type_configs` are named `type:<kind>`. -/
theorem input_device_get_config_precedence (s : sway_state) (device : sway_input_device)
    (htype : ∀ ic ∈ s.input_type_configs, ∃ kind, ic.identifier = "type:" ++ kind) :
    input_device_get_config s device = resolve_by_precedence s device
    ∧ (input_device_get_config s device = none ↔
        (∀ ic ∈ s.input_configs, ic.identifier ≠ device.identifier)
        ∧ (∀ ic ∈ s.input_type_configs,
            ic.identifier ≠ "type:" ++ input_device_get_type device)
        ∧ (∀ ic ∈ s.input_configs, ic.identifier ≠ "*")) := by
  have heq : input_device_get_config s device = resolve_by_precedence s device := by
    simp only [input_device_get_config, resolve_by_precedence,
      input_device_get_config_loop_eq, find_type_config_eq _ _ htype]
    cases s.input_configs.find? fun ic => decide (ic.identifier = device.identifier) with
    | some e => rfl
    | none =>
      simp only
      cases s.input_type_configs.find? fun ic =>
          decide (ic.identifier = "type:" ++ input_device_get_type device) with
      | some t => rfl
      | none => simp
  refine ⟨heq, ?_⟩
  rw [heq]
  simp only [resolve_by_precedence]
  cases h1 : s.input_configs.find? fun ic => decide (ic.identifier = device.identifier) with
  | some e =>
    have hm := List.mem_of_find?_eq_some h1
    have hp := List.find?_some h1
    constructor
    · intro h2
      cases h2
    · intro h2
      exact absurd (by simpa using hp) (h2.1 e hm)
  | none =>
    simp only
    have h1' : ∀ ic ∈ s.input_configs, ic.identifier ≠ device.identifier := by
      simpa using h1
    cases h2 : s.input_type_configs.find? fun ic =>
        decide (ic.identifier = "type:" ++ input_device_get_type device) with
    | some t =>
      have hm := List.mem_of_find?_eq_some h2
      have hp := List.find?_some h2
      constructor
      · intro h3
        cases h3
      · intro h3
        exact absurd (by simpa using hp) (h3.2.1 t hm)
    | none =>
      simp only
      have h2' : ∀ ic ∈ s.input_type_configs,
          ic.identifier ≠ "type:" ++ input_device_get_type device := by
        simpa using h2
      rw [List.getLast?_eq_none_iff, List.filter_eq_nil_iff]
      constructor
      · intro h3
        exact ⟨h1', h2', fun ic hic => by simpa using h3 ic hic⟩
      · intro h3 ic hic
        simpa using h3.2.2 ic hic

/-- The resolver on the rules `*`, `type:pointer` and `1:2:Foo_Bar` for the pointer
`1:2:Foo_Bar`: the rule of the device's identifier is returned. -/
theorem input_device_get_config_precedence_witness :
    (∀ ic ∈ (precedence_rules 1 1 2 true).input_type_configs,
      ∃ kind, ic.identifier = "type:" ++ kind)
    ∧ input_device_get_config (precedence_rules 1 1 2 true) foo_bar_device
      = resolve_by_precedence (precedence_rules 1 1 2 true) foo_bar_device
    ∧ (input_device_get_config (precedence_rules 1 1 2 true) foo_bar_device).map
        input_config.identifier = some "1:2:Foo_Bar" :=
  have h : ∀ ic ∈ (precedence_rules 1 1 2 true).input_type_configs,
      ∃ kind, ic.identifier = "type:" ++ kind := by
    intro ic hic
    simp only [precedence_rules, empty_state, List.mem_singleton] at hic
    subst hic
    exact ⟨"pointer", by decide⟩
  ⟨h, (input_device_get_config_precedence (precedence_rules 1 1 2 true) foo_bar_device h).1,
    by decide⟩

/-- The rule that `apply_input_type_config` stores in place of the exact rule `e`
when the type rule is `t`. -/
theorem merged_rule_fieldwise (e t : input_config) (device_type : String) :
    merged_fieldwise
      { merge_input_config (merge_input_config (new_input_config e.identifier) t) e with
        input_type := some device_type } e t := by
  refine ⟨?_, ?_, ?_, ?_, ?_, ?_, ?_⟩
  · intro f hf
    simp only [input_config_int_fields, List.mem_cons, List.mem_singleton,
      List.not_mem_nil, or_false] at hf
    rcases hf with h | h | h | h | h | h | h | h | h | h | h | h | h <;> subst h <;>
      (simp only [merge_input_config, new_input_config]
       refine ⟨fun h1 => ?_, fun h1 h2 => ?_, fun h1 h2 => ?_⟩
       · simp [h1]
       · simp [h1, h2]
       · simp [h1, h2])
  · intro h1
    simp [merge_input_config, h1]
  · intro h1 h2
    simp [merge_input_config, h1, h2]
  · intro h1 h2
    simp [merge_input_config, new_input_config, h1, h2]
  · intro h1
    simp [merge_input_config, h1]
  · intro h1 h2
    simp [merge_input_config, h1, h2]
  · intro h1 h2
    simp [merge_input_config, new_input_config, h1, h2]

/-- The second loop of `apply_input_type_config` replaces the first rule of the
device's identifier and nothing else. -/
theorem apply_input_type_config_loop_replaces (identifier device_type : String)
    (t e : input_config) (pre post : List input_config)
    (hpre : ∀ ic ∈ pre, ic.identifier ≠ identifier) (he : e.identifier = identifier) :
    apply_input_type_config_loop identifier device_type t (pre ++ e :: post)
      = pre ++
        { merge_input_config (merge_input_config (new_input_config e.identifier) t) e with
          input_type := some device_type } :: post := by
  induction pre with
  | nil => simp [apply_input_type_config_loop, he]
  | cons ic rest ih =>
    have h1 : ¬ identifier = ic.identifier := fun h => hpre ic (by simp) h.symm
    have h2 := ih (fun x hx => hpre x (by simp [hx]))
    show apply_input_type_config_loop identifier device_type t (ic :: (rest ++ e :: post)) = _
    rw [apply_input_type_config_loop, if_neg h1, h2]
    rfl

/-- Without a rule of the device's identifier the second loop of
`apply_input_type_config` changes nothing. -/
theorem apply_input_type_config_loop_unchanged (identifier device_type : String)
    (t : input_config) (l : List input_config)
    (hl : ∀ ic ∈ l, ic.identifier ≠ identifier) :
    apply_input_type_config_loop identifier device_type t l = l := by
  induction l with
  | nil => rfl
  | cons ic rest ih =>
    have h1 : ¬ identifier = ic.identifier := fun h => hl ic (by simp) h.symm
    simp only [apply_input_type_config_loop, if_neg h1, ih (fun x hx => hl x (by simp [hx]))]

/-- The second loop of `apply_input_type_config` keeps the length of the rule list. -/
theorem apply_input_type_config_loop_length (identifier device_type : String)
    (t : input_config) (l : List input_config) :
    (apply_input_type_config_loop identifier device_type t l).length = l.length := by
  induction l with
  | nil => rfl
  | cons ic rest ih =>
    by_cases h1 : identifier = ic.identifier
    · simp [apply_input_type_config_loop, h1]
    · simp [apply_input_type_config_loop, h1, ih]

/-- The first element of a list that passes a test, read off a split of the list. -/
theorem find?_of_split {α : Type} (p : α → Bool) (l pre post : List α) (x : α)
    (hl : l = pre ++ x :: post) (hpre : ∀ y ∈ pre, p y = false) (hx : p x = true) :
    l.find? p = some x := by
  subst hl
  induction pre with
  | nil => simp [List.find?_cons, hx]
  | cons y rest ih =>
    have hy : p y = false := hpre y (by simp)
    simp only [List.cons_append, List.find?_cons, hy]
    exact ih (fun z hz => hpre z (by simp [hz]))

/-- C10: when the device has an exact rule `E` (the first rule of its identifier) and a
matching type rule `T` (the first rule named `type:<kind>` for the kind of the
device, whatever rules for other kinds precede it), `apply_input_type_config`
replaces `E`, at its position, by a rule `M` with the identifier of `E` in
which every field set in `E` has the value of `E`, every field unset in `E`
and set in `T` has the value of `T`, and every field unset in both is unset;
the other rules, the length of the list and the rest of the state are
unchanged.  When no type rule is named for the kind of the device, or no rule
has the device's identifier, the state is unchanged.  The rules of
`input_type_configs` are named `type:<kind>`. -/
theorem apply_input_type_config_merges (s : sway_state) (device : sway_input_device)
    (htype : ∀ ic ∈ s.input_type_configs, ∃ kind, ic.identifier = "type:" ++ kind) :
    (∀ (T E : input_config) (tpre tpost pre post : List input_config),
      s.input_type_configs = tpre ++ T :: tpost →
      (∀ t ∈ tpre, t.identifier ≠ "type:" ++ input_device_get_type device) →
      T.identifier = "type:" ++ input_device_get_type device →
      s.input_configs = pre ++ E :: post →
      (∀ ic ∈ pre, ic.identifier ≠ device.identifier) →
      E.identifier = device.identifier →
      ∃ M : input_config,
        apply_input_type_config s device = { s with input_configs := pre ++ M :: post }
        ∧ M.identifier = E.identifier
        ∧ M.input_type = some (input_device_get_type device)
        ∧ merged_fieldwise M E T)
    ∧ (apply_input_type_config s device).input_configs.length = s.input_configs.length
    ∧ ((∀ t ∈ s.input_type_configs,
          t.identifier ≠ "type:" ++ input_device_get_type device) →
        apply_input_type_config s device = s)
    ∧ ((∀ ic ∈ s.input_configs, ic.identifier ≠ device.identifier) →
        apply_input_type_config s device = s) := by
  have hfind := find_type_config_eq (input_device_get_type device) s.input_type_configs htype
  refine ⟨?_, ?_, ?_, ?_⟩
  · intro T E tpre tpost pre post htl htpre hT hl hpre hE
    have hT2 : find_type_config (input_device_get_type device) s.input_type_configs
        = some T := by
      rw [hfind]
      exact find?_of_split _ _ tpre tpost T htl
        (fun t ht => decide_eq_false (htpre t ht)) (decide_eq_true hT)
    refine ⟨{ merge_input_config (merge_input_config (new_input_config E.identifier) T) E with
        input_type := some (input_device_get_type device) }, ?_, ?_, rfl,
      merged_rule_fieldwise E T _⟩
    · simp only [apply_input_type_config, hT2, hl]
      rw [apply_input_type_config_loop_replaces _ _ _ _ _ _ hpre hE]
    · simp [merge_input_config, new_input_config]
  · simp only [apply_input_type_config]
    cases find_type_config (input_device_get_type device) s.input_type_configs with
    | none => rfl
    | some T => simp [apply_input_type_config_loop_length]
  · intro h
    have hnone : find_type_config (input_device_get_type device) s.input_type_configs
        = none := by
      rw [hfind, List.find?_eq_none]
      intro t ht
      simpa using h t ht
    simp only [apply_input_type_config, hnone]
  · intro h
    simp only [apply_input_type_config]
    cases find_type_config (input_device_get_type device) s.input_type_configs with
    | none => rfl
    | some T =>
      simp only
      rw [apply_input_type_config_loop_unchanged _ _ _ _ h]

/-- The merge for the pointer `1:2:Foo_Bar` on rules in which a `type:keyboard` rule
precedes the `type:pointer` rule: the exact rule, second in the list, is
replaced by its merge with the `type:pointer` rule, whose click method it
takes, not that of the `type:keyboard` rule. -/
theorem apply_input_type_config_merges_witness :
    (apply_input_type_config typed_rules foo_bar_device).input_configs.map
        (fun ic => (ic.identifier, ic.accel_profile, ic.click_method, ic.send_events))
      = [("*", INT_MIN, INT_MIN, 1), ("1:2:Foo_Bar", 2, 1, INT_MIN)]
    ∧ ∃ M : input_config,
      apply_input_type_config typed_rules foo_bar_device
        = { typed_rules with
            input_configs := [{ new_input_config "*" with send_events := 1 }] ++ M :: [] }
      ∧ M.identifier = "1:2:Foo_Bar"
      ∧ M.input_type = some (input_device_get_type foo_bar_device)
      ∧ merged_fieldwise M { new_input_config "1:2:Foo_Bar" with accel_profile := 2 }
          { new_input_config "type:pointer" with accel_profile := 1, click_method := 1 } :=
  ⟨by decide,
    (apply_input_type_config_merges typed_rules foo_bar_device
      (by
        intro ic hic
        simp only [typed_rules, empty_state, List.mem_cons, List.mem_singleton,
          List.not_mem_nil, or_false] at hic
        rcases hic with h | h
        · exact ⟨"keyboard", by rw [h]; decide⟩
        · exact ⟨"pointer", by rw [h]; decide⟩)).1
      { new_input_config "type:pointer" with accel_profile := 1, click_method := 1 }
      { new_input_config "1:2:Foo_Bar" with accel_profile := 2 }
      [{ new_input_config "type:keyboard" with click_method := 9 }] []
      [{ new_input_config "*" with send_events := 1 }] []
      (by decide) (by decide) (by decide) (by decide) (by decide) (by decide)⟩

/-! ## Theorems: seat assignment -/

/-- The attachment test of `input_manager_apply_seat_config` reads the seat rules and the
name of the seat. -/
theorem apply_seat_config_attaches_eq (s : sway_state) (seat : sway_seat)
    (d : sway_input_device) :
    apply_seat_config_attaches s seat d
      = seat_rule_attaches s.seat_configs seat.name d.identifier := rfl

/-- The test of `handle_new_input` for an attachment is that of
`input_manager_apply_seat_config`. -/
theorem handle_new_input_has_attachment_eq (s : sway_state) (seat : sway_seat)
    (d : sway_input_device) :
    handle_new_input_has_attachment s seat d
      = seat_rule_attaches s.seat_configs seat.name d.identifier := by
  simp only [handle_new_input_has_attachment, seat_rule_attaches, seat_get_config]
  cases s.seat_configs.find? fun seat_config => decide (seat.name = seat_config.name) with
  | none => rfl
  | some c => exact Bool.or_comm _ _

/-- The fallback test reads the seat rules and the name of the seat. -/
theorem handle_new_input_is_fallback_eq (s : sway_state) (seat : sway_seat) :
    handle_new_input_is_fallback s seat = seat_rule_fallback s.seat_configs seat.name := rfl

/-- A position is in `seat_list` exactly when the seat at that position passes the
attachment test. -/
theorem seat_list_any_eq (s : sway_state) (d : sway_input_device) (p : Nat × sway_seat)
    (hp : p ∈ s.seats.enum) :
    ((apply_seat_config_seat_list s d).any fun item => decide (p.1 = item))
      = apply_seat_config_attaches s p.2 d := by
  rw [Bool.eq_iff_iff]
  simp only [apply_seat_config_seat_list, List.any_eq_true, List.mem_map, List.mem_filter,
    decide_eq_true_eq]
  constructor
  · rintro ⟨item, ⟨q, ⟨hq, hq2⟩, rfl⟩, h⟩
    have h1 := List.mem_enum hp
    have h2 := List.mem_enum hq
    have : q = p := by
      rcases p with ⟨i, x⟩
      rcases q with ⟨j, y⟩
      simp only at h
      subst h
      simp only at h1 h2
      rw [h1.2, h2.2]
    rw [← this]
    exact hq2
  · intro h
    exact ⟨p.1, ⟨p, ⟨hp, h⟩, rfl⟩, rfl⟩

/-- The list `seat_list` is non-empty exactly when some seat passes the attachment
test. -/
theorem seat_list_length_ne_zero (s : sway_state) (d : sway_input_device) :
    ((apply_seat_config_seat_list s d).length ≠ 0)
      ↔ (s.seats.map sway_seat.name).any
          (fun n => seat_rule_attaches s.seat_configs n d.identifier) = true := by
  rw [← Nat.pos_iff_ne_zero, List.length_pos_iff_exists_mem]
  simp only [apply_seat_config_seat_list, List.mem_map, List.mem_filter, List.any_eq_true,
    apply_seat_config_attaches_eq]
  constructor
  · rintro ⟨i, q, ⟨hq, hq2⟩, _⟩
    have h2 := (List.mem_enum hq).2
    refine ⟨q.2.name, ⟨q.2, ?_, rfl⟩, hq2⟩
    rw [h2]
    exact List.getElem_mem _
  · rintro ⟨n, ⟨seat, hseat, rfl⟩, h⟩
    obtain ⟨i, hi, rfl⟩ := List.getElem_of_mem hseat
    refine ⟨i, (i, s.seats[i]), ⟨?_, h⟩, rfl⟩
    rw [List.mk_mem_enum_iff_getElem?]
    exact List.getElem?_eq_getElem hi

/-- Mapping over the seats is mapping over the enumerated seats. -/
theorem map_eq_enum_map {α β : Type} (f : α → β) (l : List α) :
    l.map f = l.enum.map fun p => f p.2 := by
  have h := congrArg (List.map f) (List.enum_map_snd l)
  rw [List.map_map] at h
  exact h.symm

/-- The body of the device loop of `input_manager_apply_seat_config`, seat by seat. -/
theorem apply_seat_config_device_eq (s : sway_state) (d : sway_input_device) :
    apply_seat_config_device s d
      = { s with
          seats := s.seats.map fun seat =>
            reconcile_seat s.seat_configs (s.seats.map sway_seat.name) seat d } := by
  by_cases h : (apply_seat_config_seat_list s d).length ≠ 0
  · have h2 := (seat_list_length_ne_zero s d).mp h
    simp only [apply_seat_config_device, if_pos h]
    congr 1
    rw [map_eq_enum_map (fun seat =>
      reconcile_seat s.seat_configs (s.seats.map sway_seat.name) seat d) s.seats]
    apply List.map_congr_left
    intro p hp
    simp only [seat_list_any_eq s d p hp, reconcile_seat, reconciled_attachment, h2, if_true,
      apply_seat_config_attaches_eq]
  · have h2 : ((s.seats.map sway_seat.name).any
        (fun n => seat_rule_attaches s.seat_configs n d.identifier)) = false := by
      rw [← Bool.not_eq_true]
      exact fun h3 => h ((seat_list_length_ne_zero s d).mpr h3)
    simp only [apply_seat_config_device, if_neg h]
    congr 1
    apply List.map_congr_left
    intro seat _
    simp only [reconcile_seat, reconciled_attachment, h2, seat_rule_fallback,
      seat_get_config, Bool.false_eq_true, if_false]
    cases s.seat_configs.find? fun seat_config => decide (seat.name = seat_config.name) with
    | none => simp
    | some c => simp

/-- The devices of a seat after `seat_add_device`. -/
theorem mem_seat_add_device (seat : sway_seat) (d : sway_input_device) (a : Nat) :
    a ∈ (seat_add_device seat d).devices ↔ a = d.addr ∨ a ∈ seat.devices := by
  by_cases h : d.addr ∈ seat.devices
  · simp only [seat_add_device, if_pos h]
    constructor
    · exact Or.inr
    · rintro (h1 | h1)
      · rw [h1]; exact h
      · exact h1
  · simp [seat_add_device, if_neg h]

/-- The devices of a seat after `seat_remove_device`. -/
theorem mem_seat_remove_device (seat : sway_seat) (d : sway_input_device) (a : Nat) :
    a ∈ (seat_remove_device seat d).devices ↔ a ∈ seat.devices ∧ a ≠ d.addr := by
  simp [seat_remove_device]

/-- Adding a device keeps the name of the seat. -/
theorem seat_add_device_name (seat : sway_seat) (d : sway_input_device) :
    (seat_add_device seat d).name = seat.name := by
  simp only [seat_add_device]
  split <;> rfl

/-- The reconciliation of a seat keeps its name. -/
theorem reconcile_seat_name (cfgs : List seat_config) (names : List String)
    (seat : sway_seat) (d : sway_input_device) :
    (reconcile_seat cfgs names seat d).name = seat.name := by
  simp only [reconcile_seat]
  split
  · exact seat_add_device_name seat d
  · rfl

/-- The reconciliation of a seat for one device decides whether that device is attached
and leaves the other devices as they are. -/
theorem mem_reconcile_seat (cfgs : List seat_config) (names : List String)
    (seat : sway_seat) (d : sway_input_device) (a : Nat) :
    a ∈ (reconcile_seat cfgs names seat d).devices ↔
      (a = d.addr ∧ reconciled_attachment cfgs names d.identifier seat.name = true)
      ∨ (a ≠ d.addr ∧ a ∈ seat.devices) := by
  by_cases h : reconciled_attachment cfgs names d.identifier seat.name = true
  · rw [reconcile_seat, if_pos h, mem_seat_add_device]
    by_cases ha : a = d.addr
    · simp [ha, h]
    · simp [ha]
  · rw [reconcile_seat, if_neg h, mem_seat_remove_device]
    have h2 : reconciled_attachment cfgs names d.identifier seat.name = false := by
      simpa using h
    rw [h2]
    simp only [Bool.false_eq_true, and_false, false_or]
    exact and_comm

/-- The reconciliation of a seat for a list of devices keeps its name. -/
theorem foldl_reconcile_seat_name (cfgs : List seat_config) (names : List String)
    (ds : List sway_input_device) (seat : sway_seat) :
    (ds.foldl (reconcile_seat cfgs names) seat).name = seat.name := by
  induction ds generalizing seat with
  | nil => rfl
  | cons d rest ih => rw [List.foldl_cons, ih, reconcile_seat_name]

/-- The reconciliation of a seat for a list of devices leaves the devices at other
addresses as they are. -/
theorem mem_foldl_reconcile_seat_of_not_mem (cfgs : List seat_config) (names : List String)
    (ds : List sway_input_device) (seat : sway_seat) (a : Nat)
    (ha : ∀ d ∈ ds, d.addr ≠ a) :
    a ∈ (ds.foldl (reconcile_seat cfgs names) seat).devices ↔ a ∈ seat.devices := by
  induction ds generalizing seat with
  | nil => rfl
  | cons d rest ih =>
    have h1 : a ≠ d.addr := fun h => ha d (by simp) h.symm
    rw [List.foldl_cons, ih _ (fun x hx => ha x (by simp [hx])), mem_reconcile_seat]
    simp [h1]

/-- The reconciliation of a seat for a list of devices at distinct addresses attaches
each of them as the attachment rules and the fallback flag say. -/
theorem mem_foldl_reconcile_seat (cfgs : List seat_config) (names : List String)
    (ds : List sway_input_device) (seat : sway_seat) (d : sway_input_device)
    (hnodup : (ds.map sway_input_device.addr).Nodup) (hd : d ∈ ds) :
    d.addr ∈ (ds.foldl (reconcile_seat cfgs names) seat).devices ↔
      reconciled_attachment cfgs names d.identifier seat.name = true := by
  induction ds generalizing seat with
  | nil => simp at hd
  | cons x rest ih =>
    rw [List.map_cons, List.nodup_cons] at hnodup
    rw [List.foldl_cons]
    rcases List.mem_cons.mp hd with h | h
    · subst h
      rw [mem_foldl_reconcile_seat_of_not_mem, mem_reconcile_seat]
      · simp
      · intro y hy hxy
        exact hnodup.1 (List.mem_map.mpr ⟨y, hy, hxy⟩)
    · rw [ih _ hnodup.2 h, reconcile_seat_name]

/-- The device loop of `input_manager_apply_seat_config`, seat by seat. -/
theorem foldl_apply_seat_config_device_eq (ds : List sway_input_device) (s : sway_state) :
    ds.foldl apply_seat_config_device s
      = { s with
          seats := s.seats.map fun seat =>
            ds.foldl (reconcile_seat s.seat_configs (s.seats.map sway_seat.name)) seat } := by
  induction ds generalizing s with
  | nil => simp
  | cons d rest ih =>
    rw [List.foldl_cons, ih, apply_seat_config_device_eq]
    have hn : (s.seats.map fun seat =>
          reconcile_seat s.seat_configs (s.seats.map sway_seat.name) seat d).map sway_seat.name
        = s.seats.map sway_seat.name := by
      rw [List.map_map]
      apply List.map_congr_left
      intro seat _
      exact reconcile_seat_name _ _ _ _
    simp only [hn, List.map_map]
    rfl

/-- Updating a seat through a pointer keeps the names when the update does. -/
theorem update_seat_names (f : sway_seat → sway_seat) (hf : ∀ seat, (f seat).name = seat.name)
    (i : Nat) (l : List sway_seat) :
    (update_seat f i l).map sway_seat.name = l.map sway_seat.name := by
  induction l generalizing i with
  | nil => cases i <;> rfl
  | cons seat rest ih =>
    cases i with
    | zero => simp [update_seat, hf]
    | succ n => simp [update_seat, ih]

/-- The loop of `input_manager_get_seat` finds no seat exactly when no seat has the
name. -/
theorem input_manager_get_seat_loop_eq_none (seat_name : String) (l : List sway_seat) :
    input_manager_get_seat_loop seat_name l = none ↔ seat_name ∉ l.map sway_seat.name := by
  induction l with
  | nil => simp [input_manager_get_seat_loop]
  | cons seat rest ih =>
    by_cases h : seat.name = seat_name
    · simp [input_manager_get_seat_loop, h]
    · have h2 : ¬ seat_name = seat.name := fun h3 => h h3.symm
      simp [input_manager_get_seat_loop, h, h2, ih]

/-- The seat that the loop of `input_manager_get_seat` finds has the name. -/
theorem input_manager_get_seat_loop_some (seat_name : String) (l : List sway_seat) (i : Nat)
    (h : input_manager_get_seat_loop seat_name l = some i) :
    ∃ seat, l[i]? = some seat ∧ seat.name = seat_name := by
  induction l generalizing i with
  | nil => simp [input_manager_get_seat_loop] at h
  | cons seat rest ih =>
    by_cases h1 : seat.name = seat_name
    · simp only [input_manager_get_seat_loop, if_pos h1, Option.some.injEq] at h
      subst h
      exact ⟨seat, by simp, h1⟩
    · simp only [input_manager_get_seat_loop, if_neg h1, Option.map_eq_some'] at h
      obtain ⟨j, hj, rfl⟩ := h
      obtain ⟨st, hst, hname⟩ := ih j hj
      exact ⟨st, by simpa using hst, hname⟩

/-- The first part of `input_manager_apply_seat_config` never returns early; it changes
nothing but the seat list, in which it creates the seat of the configuration
when the configuration is not `*` and no seat has its name. -/
theorem apply_seat_config_seats_some (s : sway_state) (sc : seat_config) :
    ∃ s1, apply_seat_config_seats s sc = some s1
      ∧ s1.devices = s.devices ∧ s1.seat_configs = s.seat_configs
      ∧ s1.input_configs = s.input_configs
      ∧ s1.input_type_configs = s.input_type_configs
      ∧ s1.libinput_calls = s.libinput_calls
      ∧ s1.seats.map sway_seat.name
          = if sc.name = "*" ∨ sc.name ∈ s.seats.map sway_seat.name then
              s.seats.map sway_seat.name
            else sc.name :: s.seats.map sway_seat.name := by
  by_cases h : sc.name = "*"
  · refine ⟨{ s with
        seats := s.seats.map fun seat =>
          seat_apply_config seat
            (match seat_get_config s seat with
              | some sc => sc
              | none => sc) },
      by simp only [apply_seat_config_seats, if_pos h], rfl, rfl, rfl, rfl, rfl, ?_⟩
    simp only [h, true_or, if_true, List.map_map]
    apply List.map_congr_left
    intro seat _
    rfl
  · cases hl : input_manager_get_seat_loop sc.name s.seats with
    | some i =>
      have hmem : sc.name ∈ s.seats.map sway_seat.name := by
        by_contra hc
        rw [(input_manager_get_seat_loop_eq_none _ _).mpr hc] at hl
        cases hl
      refine ⟨{ s with seats := update_seat (fun st => seat_apply_config st sc) i s.seats },
        by simp only [apply_seat_config_seats, if_neg h, input_manager_get_seat, hl],
        rfl, rfl, rfl, rfl, rfl, ?_⟩
      simp only [hmem, or_true, if_true]
      exact update_seat_names (fun st => seat_apply_config st sc) (fun _ => rfl) i s.seats
    | none =>
      have hmem := (input_manager_get_seat_loop_eq_none _ _).mp hl
      refine ⟨{ s with
          seats := update_seat (fun st => seat_apply_config st sc) 0
            (seat_create s sc.name).seats },
        by
          simp only [apply_seat_config_seats, if_neg h, input_manager_get_seat, hl, if_true]
          rfl,
        rfl, rfl, rfl, rfl, rfl, ?_⟩
      simp only [h, hmem, or_self, if_false]
      rfl

/-- The function `input_manager_apply_seat_config` changes nothing but the seat list: the
names of the seats are those of before, preceded by the name of the
configuration when it is not `*` and no seat had it; and every registered
device, the addresses of the devices being distinct, is attached to a seat
exactly when the attachment rules, or else the fallback flag, say so. -/
theorem apply_seat_config_result (s : sway_state) (sc : seat_config) :
    (input_manager_apply_seat_config s sc).devices = s.devices
    ∧ (input_manager_apply_seat_config s sc).seat_configs = s.seat_configs
    ∧ (input_manager_apply_seat_config s sc).input_configs = s.input_configs
    ∧ (input_manager_apply_seat_config s sc).input_type_configs = s.input_type_configs
    ∧ (input_manager_apply_seat_config s sc).libinput_calls = s.libinput_calls
    ∧ (input_manager_apply_seat_config s sc).seats.map sway_seat.name
        = (if sc.name = "*" ∨ sc.name ∈ s.seats.map sway_seat.name then
            s.seats.map sway_seat.name
          else sc.name :: s.seats.map sway_seat.name)
    ∧ ((s.devices.map sway_input_device.addr).Nodup →
        ∀ d ∈ s.devices, ∀ seat ∈ (input_manager_apply_seat_config s sc).seats,
          (d.addr ∈ seat.devices ↔
            reconciled_attachment s.seat_configs
              ((input_manager_apply_seat_config s sc).seats.map sway_seat.name)
              d.identifier seat.name = true)) := by
  obtain ⟨s1, h1, hd, hc, hi, ht, hl, hn⟩ := apply_seat_config_seats_some s sc
  have hpost : input_manager_apply_seat_config s sc
      = { s1 with
          seats := s1.seats.map fun seat =>
            s1.devices.foldl (reconcile_seat s1.seat_configs (s1.seats.map sway_seat.name))
              seat } := by
    simp only [input_manager_apply_seat_config, h1, foldl_apply_seat_config_device_eq]
  have hnames : (input_manager_apply_seat_config s sc).seats.map sway_seat.name
      = s1.seats.map sway_seat.name := by
    rw [hpost]
    simp only [List.map_map]
    apply List.map_congr_left
    intro seat _
    exact foldl_reconcile_seat_name _ _ _ _
  refine ⟨by rw [hpost]; exact hd, by rw [hpost]; exact hc, by rw [hpost]; exact hi,
    by rw [hpost]; exact ht, by rw [hpost]; exact hl, by rw [hnames]; exact hn, ?_⟩
  intro hnodup d hdmem seat hseat
  rw [hnames]
  rw [hpost] at hseat
  simp only [List.mem_map] at hseat
  obtain ⟨seat0, _, rfl⟩ := hseat
  rw [foldl_reconcile_seat_name, ← hc]
  exact mem_foldl_reconcile_seat _ _ _ _ d (hd ▸ hnodup) (hd ▸ hdmem)

/-- The attachment test on the rules is the declaration of an attachment by the seat's
configuration. -/
theorem seat_rule_attaches_iff (s : sway_state) (seat : sway_seat) (identifier : String) :
    seat_rule_attaches s.seat_configs seat.name identifier = true
      ↔ seat_declares_attachment s seat identifier := by
  simp only [seat_rule_attaches, seat_declares_attachment, seat_get_config,
    seat_config_get_attachment]
  cases s.seat_configs.find? fun seat_config => decide (seat.name = seat_config.name) with
  | none => simp
  | some c =>
    simp only [Bool.or_eq_true, List.find?_isSome, decide_eq_true_eq, Option.some.injEq,
      exists_eq_left']
    constructor
    · rintro (⟨a, ha, h⟩ | ⟨a, ha, h⟩)
      · exact ⟨a, ha, Or.inr h⟩
      · exact ⟨a, ha, Or.inl h⟩
    · rintro ⟨a, ha, h | h⟩
      · exact Or.inr ⟨a, ha, h⟩
      · exact Or.inl ⟨a, ha, h⟩

/-- The fallback test on the rules is the fallback flag of the seat's configuration. -/
theorem seat_rule_fallback_iff (s : sway_state) (seat : sway_seat) :
    seat_rule_fallback s.seat_configs seat.name = true ↔ seat_has_fallback s seat := by
  simp only [seat_rule_fallback, seat_has_fallback, seat_get_config]
  cases s.seat_configs.find? fun seat_config => decide (seat.name = seat_config.name) with
  | none => simp
  | some c => simp

/-- Some seat name passes the attachment test exactly when some seat declares an
attachment. -/
theorem any_seat_rule_attaches_iff (s : sway_state) (identifier : String) :
    (s.seats.map sway_seat.name).any
        (fun n => seat_rule_attaches s.seat_configs n identifier) = true
      ↔ ∃ seat ∈ s.seats, seat_declares_attachment s seat identifier := by
  simp only [List.any_eq_true, List.mem_map]
  constructor
  · rintro ⟨n, ⟨seat, hseat, rfl⟩, h⟩
    exact ⟨seat, hseat, (seat_rule_attaches_iff s seat identifier).mp h⟩
  · rintro ⟨seat, hseat, h⟩
    exact ⟨seat.name, ⟨seat, hseat, rfl⟩, (seat_rule_attaches_iff s seat identifier).mpr h⟩

/-- After `input_manager_apply_seat_config`, every registered device is attached to a seat
exactly when, some seat declaring an attachment for it, that seat declares one,
or, no seat declaring one, that seat is a fallback seat. -/
theorem apply_seat_config_attached_iff (s : sway_state) (sc : seat_config)
    (d : sway_input_device) (hnodup : (s.devices.map sway_input_device.addr).Nodup)
    (hd : d ∈ s.devices) (seat : sway_seat)
    (hseat : seat ∈ (input_manager_apply_seat_config s sc).seats) :
    d.addr ∈ seat.devices ↔
      ((∃ st ∈ (input_manager_apply_seat_config s sc).seats,
          seat_declares_attachment (input_manager_apply_seat_config s sc) st d.identifier)
        ∧ seat_declares_attachment (input_manager_apply_seat_config s sc) seat d.identifier)
      ∨ ((¬ ∃ st ∈ (input_manager_apply_seat_config s sc).seats,
          seat_declares_attachment (input_manager_apply_seat_config s sc) st d.identifier)
        ∧ seat_has_fallback (input_manager_apply_seat_config s sc) seat) := by
  obtain ⟨_, hc, _, _, _, _, hmem⟩ := apply_seat_config_result s sc
  rw [hmem hnodup d hd seat hseat, ← hc, reconciled_attachment,
    ← any_seat_rule_attaches_iff, ← seat_rule_attaches_iff, ← seat_rule_fallback_iff]
  by_cases h : ((input_manager_apply_seat_config s sc).seats.map sway_seat.name).any
      (fun n => seat_rule_attaches (input_manager_apply_seat_config s sc).seat_configs n
        d.identifier) = true
  · simp [h]
  · simp [h]

/-- C1: after `input_manager_apply_seat_config`, a registered device for which at least
one seat's configuration declares an attachment for its identifier or a `*`
attachment is attached to exactly those seats, to each of them and to no other
seat, whatever it was attached to before.  The addresses of the registered
devices are distinct. -/
theorem apply_seat_config_attaches_exactly (s : sway_state) (sc : seat_config)
    (d : sway_input_device) (hnodup : (s.devices.map sway_input_device.addr).Nodup)
    (hd : d ∈ s.devices)
    (hclaimed : ∃ st ∈ (input_manager_apply_seat_config s sc).seats,
      seat_declares_attachment (input_manager_apply_seat_config s sc) st d.identifier) :
    ∀ seat ∈ (input_manager_apply_seat_config s sc).seats,
      (d.addr ∈ seat.devices ↔
        seat_declares_attachment (input_manager_apply_seat_config s sc) seat
          d.identifier) := by
  intro seat hseat
  rw [apply_seat_config_attached_iff s sc d hnodup hd seat hseat]
  constructor
  · rintro (h | h)
    · exact h.2
    · exact absurd hclaimed h.1
  · intro h
    exact Or.inl ⟨hclaimed, h⟩

/-- The device `1:2:Foo_Bar`, attached to seat `A`, ends attached to seat `B` and
detached from `A` when the rules attach it to `B` only. -/
theorem apply_seat_config_attaches_exactly_witness :
    seats_holding replace_state 100 = ["A"]
    ∧ seats_holding
        (input_manager_apply_seat_config replace_state (seat_rule "B" (-1) ["1:2:Foo_Bar"]))
        100 = ["B"]
    ∧ ∀ seat ∈ (input_manager_apply_seat_config replace_state
          (seat_rule "B" (-1) ["1:2:Foo_Bar"])).seats,
        (foo_bar_device.addr ∈ seat.devices ↔
          seat_declares_attachment
            (input_manager_apply_seat_config replace_state
              (seat_rule "B" (-1) ["1:2:Foo_Bar"])) seat foo_bar_device.identifier) :=
  ⟨by decide, by decide,
    apply_seat_config_attaches_exactly replace_state (seat_rule "B" (-1) ["1:2:Foo_Bar"])
      foo_bar_device (by decide) (by decide)
      ((any_seat_rule_attaches_iff _ _).mp (by decide))⟩

/-- C2: after `input_manager_apply_seat_config`, a registered device for which no seat's
configuration declares an attachment for its identifier or a `*` attachment is
attached to every seat whose configuration has `fallback` true and detached
from every other seat, the seats without a configuration among them.  The
addresses of the registered devices are distinct. -/
theorem apply_seat_config_falls_back (s : sway_state) (sc : seat_config)
    (d : sway_input_device) (hnodup : (s.devices.map sway_input_device.addr).Nodup)
    (hd : d ∈ s.devices)
    (hunclaimed : ¬ ∃ st ∈ (input_manager_apply_seat_config s sc).seats,
      seat_declares_attachment (input_manager_apply_seat_config s sc) st d.identifier) :
    ∀ seat ∈ (input_manager_apply_seat_config s sc).seats,
      (d.addr ∈ seat.devices ↔ seat_has_fallback (input_manager_apply_seat_config s sc) seat)
      ∧ (seat_get_config (input_manager_apply_seat_config s sc) seat = none →
          d.addr ∉ seat.devices) := by
  intro seat hseat
  have h : d.addr ∈ seat.devices ↔
      seat_has_fallback (input_manager_apply_seat_config s sc) seat := by
    rw [apply_seat_config_attached_iff s sc d hnodup hd seat hseat]
    constructor
    · rintro (h | h)
      · exact absurd h.1 hunclaimed
      · exact h.2
    · intro h
      exact Or.inr ⟨hunclaimed, h⟩
  refine ⟨h, ?_⟩
  intro hnone hmem
  obtain ⟨c, hc, _⟩ := h.mp hmem
  rw [hnone] at hc
  cases hc

/-- The device `1:2:Foo_Bar`, attached to seat `A` and claimed by no seat, ends attached
to the fallback seat `F` and detached from `A`. -/
theorem apply_seat_config_falls_back_witness :
    seats_holding fallback_state 100 = ["A"]
    ∧ seats_holding (input_manager_apply_seat_config fallback_state (seat_rule "F" 1 []))
        100 = ["F"]
    ∧ ∀ seat ∈ (input_manager_apply_seat_config fallback_state (seat_rule "F" 1 [])).seats,
        (foo_bar_device.addr ∈ seat.devices ↔
          seat_has_fallback (input_manager_apply_seat_config fallback_state
            (seat_rule "F" 1 [])) seat)
        ∧ (seat_get_config (input_manager_apply_seat_config fallback_state
              (seat_rule "F" 1 [])) seat = none →
            foo_bar_device.addr ∉ seat.devices) :=
  ⟨by decide, by decide,
    apply_seat_config_falls_back fallback_state (seat_rule "F" 1 []) foo_bar_device
      (by decide) (by decide)
      (fun h => absurd ((any_seat_rule_attaches_iff _ _).mpr h) (by decide))⟩

/-- C3, as stated, fails: the device `1:2:Foo_Bar` is attached to seat `A`, no seat
declares an attachment for it and no seat is a fallback seat; after
`input_manager_apply_seat_config` no seat holds the device, so the seats that
hold it are not those that held it before. -/
theorem apply_seat_config_orphan_counterexample :
    ((input_manager_apply_seat_config orphan_state (seat_rule "A" 0 [])).seats.any
        fun seat =>
          apply_seat_config_attaches
            (input_manager_apply_seat_config orphan_state (seat_rule "A" 0 [])) seat
            foo_bar_device) = false
    ∧ ((input_manager_apply_seat_config orphan_state (seat_rule "A" 0 [])).seats.any
        fun seat =>
          handle_new_input_is_fallback
            (input_manager_apply_seat_config orphan_state (seat_rule "A" 0 [])) seat) = false
    ∧ seats_holding orphan_state 100 = ["A"]
    ∧ seats_holding (input_manager_apply_seat_config orphan_state (seat_rule "A" 0 [])) 100
        = []
    ∧ seats_holding (input_manager_apply_seat_config orphan_state (seat_rule "A" 0 [])) 100
        ≠ seats_holding orphan_state 100 := by
  decide

/-- C3, amended: after `input_manager_apply_seat_config`, a registered device for which no
seat declares an explicit or `*` attachment, while no seat has `fallback` true,
is attached to no seat: it is detached from every seat that held it.  The
addresses of the registered devices are distinct. -/
theorem apply_seat_config_orphan_detached (s : sway_state) (sc : seat_config)
    (d : sway_input_device) (hnodup : (s.devices.map sway_input_device.addr).Nodup)
    (hd : d ∈ s.devices)
    (hunclaimed : ¬ ∃ st ∈ (input_manager_apply_seat_config s sc).seats,
      seat_declares_attachment (input_manager_apply_seat_config s sc) st d.identifier)
    (hnofallback : ¬ ∃ st ∈ (input_manager_apply_seat_config s sc).seats,
      seat_has_fallback (input_manager_apply_seat_config s sc) st) :
    (∀ seat ∈ (input_manager_apply_seat_config s sc).seats, d.addr ∉ seat.devices)
    ∧ seats_holding (input_manager_apply_seat_config s sc) d.addr = [] := by
  have h : ∀ seat ∈ (input_manager_apply_seat_config s sc).seats, d.addr ∉ seat.devices := by
    intro seat hseat hmem
    rw [apply_seat_config_attached_iff s sc d hnodup hd seat hseat] at hmem
    rcases hmem with h | h
    · exact hunclaimed h.1
    · exact hnofallback ⟨seat, hseat, h.2⟩
  refine ⟨h, ?_⟩
  simp only [seats_holding, List.map_eq_nil_iff, List.filter_eq_nil_iff, decide_eq_true_eq]
  exact h

/-- The device `1:2:Foo_Bar`, attached to seat `A`, claimed by no seat and without a
fallback seat, ends attached to no seat. -/
theorem apply_seat_config_orphan_detached_witness :
    seats_holding orphan_state foo_bar_device.addr = ["A"]
    ∧ (∀ seat ∈ (input_manager_apply_seat_config orphan_state (seat_rule "A" 0 [])).seats,
        foo_bar_device.addr ∉ seat.devices)
    ∧ seats_holding (input_manager_apply_seat_config orphan_state (seat_rule "A" 0 []))
        foo_bar_device.addr = [] :=
  ⟨by decide,
    apply_seat_config_orphan_detached orphan_state (seat_rule "A" 0 []) foo_bar_device
      (by decide) (by decide)
      (fun h => absurd ((any_seat_rule_attaches_iff _ _).mpr h) (by decide))
      (fun h => by
        obtain ⟨st, hst, hf⟩ := h
        have h2 := (seat_rule_fallback_iff _ st).mpr hf
        have h3 : ∀ seat ∈ (input_manager_apply_seat_config orphan_state
            (seat_rule "A" 0 [])).seats,
            seat_rule_fallback
              (input_manager_apply_seat_config orphan_state (seat_rule "A" 0 [])).seat_configs
              seat.name = false := by decide
        rw [h3 st hst] at h2
        cases h2)⟩

/-! ## Theorems: the fallback seat -/

/-- The function `input_has_seat_fallback_configuration` answers whether some seat has a
configuration, not named `*`, whose `fallback` is set. -/
theorem input_has_seat_fallback_configuration_iff (s : sway_state) :
    input_has_seat_fallback_configuration s = true ↔
      ∃ seat ∈ s.seats, ∃ c, seat_get_config s seat = some c ∧ c.name ≠ "*"
        ∧ c.fallback ≠ -1 := by
  simp only [input_has_seat_fallback_configuration, List.any_eq_true]
  constructor
  · rintro ⟨seat, hseat, h⟩
    refine ⟨seat, hseat, ?_⟩
    cases hc : seat_get_config s seat with
    | none => rw [hc] at h; cases h
    | some c =>
      rw [hc] at h
      simp only [Bool.and_eq_true, decide_eq_true_eq] at h
      exact ⟨c, rfl, h.1, h.2⟩
  · rintro ⟨seat, hseat, c, hc, h1, h2⟩
    refine ⟨seat, hseat, ?_⟩
    rw [hc]
    simp [h1, h2]

/-- After the search of `store_seat_config` has merged the rule, the rule stored under
its name is the merged rule, which has the name of the rule and, when the rule
sets `fallback`, its `fallback`. -/
theorem store_seat_config_loop_some (sc : seat_config) (l l2 : List seat_config)
    (sc2 : seat_config) (h : store_seat_config_loop sc l = some (l2, sc2)) :
    (l2.find? fun c => decide (sc.name = c.name)) = some sc2
    ∧ sc2.name = sc.name ∧ (sc.fallback ≠ -1 → sc2.fallback = sc.fallback) := by
  induction l generalizing l2 with
  | nil => simp [store_seat_config_loop] at h
  | cons current rest ih =>
    by_cases h1 : current.name = sc.name
    · simp only [store_seat_config_loop, if_pos h1, Option.some.injEq, Prod.mk.injEq] at h
      obtain ⟨rfl, rfl⟩ := h
      refine ⟨?_, h1, ?_⟩
      · simp [List.find?_cons, merge_seat_config, h1]
      · intro hf
        simp [merge_seat_config, hf]
    · simp only [store_seat_config_loop, if_neg h1, Option.map_eq_some', Prod.mk.injEq,
        Prod.exists] at h
      obtain ⟨l3, sc3, h3, rfl, rfl⟩ := h
      obtain ⟨h4, h5, h6⟩ := ih l3 h3
      refine ⟨?_, h5, h6⟩
      have h7 : ¬ sc.name = current.name := fun h8 => h1 h8.symm
      simp [List.find?_cons, h7, h4]

/-- The search of `store_seat_config` fails exactly when no stored rule has the name. -/
theorem store_seat_config_loop_none (sc : seat_config) (l : List seat_config)
    (h : store_seat_config_loop sc l = none) : ∀ c ∈ l, sc.name ≠ c.name := by
  induction l with
  | nil => simp
  | cons current rest ih =>
    by_cases h1 : current.name = sc.name
    · simp [store_seat_config_loop, h1] at h
    · simp only [store_seat_config_loop, if_neg h1, Option.map_eq_none'] at h
      intro c hc
      rcases List.mem_cons.mp hc with rfl | hc
      · exact fun h2 => h1 h2.symm
      · exact ih h c hc

/-- After `store_seat_config`, the rule stored under the name of the rule is the rule
returned, which has that name and, when the rule sets `fallback`, its
`fallback`; the registries are unchanged. -/
theorem store_seat_config_spec (s : sway_state) (sc : seat_config) :
    ((store_seat_config s sc).1.seat_configs.find? fun c => decide (sc.name = c.name))
      = some (store_seat_config s sc).2
    ∧ (store_seat_config s sc).2.name = sc.name
    ∧ (sc.fallback ≠ -1 → (store_seat_config s sc).2.fallback = sc.fallback)
    ∧ (store_seat_config s sc).1.seats = s.seats
    ∧ (store_seat_config s sc).1.devices = s.devices := by
  cases h : store_seat_config_loop sc s.seat_configs with
  | some r =>
    obtain ⟨l2, sc2⟩ := r
    obtain ⟨h1, h2, h3⟩ := store_seat_config_loop_some sc _ l2 sc2 h
    have hs : store_seat_config s sc = ({ s with seat_configs := l2 }, sc2) := by
      simp only [store_seat_config, h]
    rw [hs]
    exact ⟨h1, h2, h3, rfl, rfl⟩
  | none =>
    have h1 := store_seat_config_loop_none sc _ h
    have hs : store_seat_config s sc
        = ({ s with seat_configs := s.seat_configs ++ [sc] }, sc) := by
      simp only [store_seat_config, h]
    rw [hs]
    refine ⟨?_, rfl, fun _ => rfl, rfl, rfl⟩
    show ((s.seat_configs ++ [sc]).find? fun c => decide (sc.name = c.name)) = some sc
    rw [List.find?_append]
    have h2 : (s.seat_configs.find? fun c => decide (sc.name = c.name)) = none := by
      simpa using h1
    simp [h2]

/-- C4, as stated, fails: the rule of seat `seat0` sets `fallback` to false;
`input_manager_verify_fallback_seat` changes nothing, and no seat has a
configuration with `fallback` true afterwards. -/
theorem verify_fallback_seat_counterexample :
    input_manager_verify_fallback_seat no_fallback_state = no_fallback_state
    ∧ ((input_manager_verify_fallback_seat no_fallback_state).seats.any fun seat =>
        handle_new_input_is_fallback (input_manager_verify_fallback_seat no_fallback_state)
          seat) = false := by
  decide

/-- C4, amended: after `input_manager_verify_fallback_seat`, at least one seat of the
registry has a configuration, not named `*`, whose `fallback` is set, to true
or to false; when none had one before the call, the default seat `seat0` is in
the registry and its configuration has `fallback` true; otherwise the call
changes nothing. -/
theorem verify_fallback_seat_configured (s : sway_state) :
    (∃ seat ∈ (input_manager_verify_fallback_seat s).seats,
      ∃ c, seat_get_config (input_manager_verify_fallback_seat s) seat = some c
        ∧ c.name ≠ "*" ∧ c.fallback ≠ -1)
    ∧ (input_has_seat_fallback_configuration s = false →
        ∃ seat ∈ (input_manager_verify_fallback_seat s).seats,
          seat.name = DEFAULT_SEAT ∧ seat_has_fallback (input_manager_verify_fallback_seat s) seat)
    ∧ (input_has_seat_fallback_configuration s = true →
        input_manager_verify_fallback_seat s = s) := by
  have hpos : input_has_seat_fallback_configuration s = true →
      input_manager_verify_fallback_seat s = s := by
    intro h
    simp only [input_manager_verify_fallback_seat, h, Bool.not_true, Bool.false_eq_true,
      if_false]
  have hneg : input_has_seat_fallback_configuration s = false →
      ∃ seat ∈ (input_manager_verify_fallback_seat s).seats,
        seat.name = DEFAULT_SEAT
          ∧ ∃ c, seat_get_config (input_manager_verify_fallback_seat s) seat = some c
            ∧ c.name = DEFAULT_SEAT ∧ c.fallback = 1 := by
    intro h
    -- the default seat is found or created
    obtain ⟨s1, i, seat0, hget, hseat0, hname0⟩ :
        ∃ s1 i seat0, input_manager_get_default_seat s = (s1, some i)
          ∧ s1.seats[i]? = some seat0 ∧ seat0.name = DEFAULT_SEAT := by
      simp only [input_manager_get_default_seat, input_manager_get_seat]
      cases hl : input_manager_get_seat_loop DEFAULT_SEAT s.seats with
      | some i =>
        obtain ⟨seat, hs1, hs2⟩ := input_manager_get_seat_loop_some _ _ _ hl
        exact ⟨s, i, seat, rfl, hs1, hs2⟩
      | none =>
        exact ⟨seat_create s DEFAULT_SEAT, 0,
          { name := DEFAULT_SEAT, devices := [], applied_config := none }, rfl,
          by simp [seat_create], rfl⟩
    have hmem0 : seat0 ∈ s1.seats := by
      obtain ⟨hi, hi2⟩ := List.getElem?_eq_some.mp hseat0
      rw [← hi2]
      exact List.getElem_mem _
    have hverify : input_manager_verify_fallback_seat s
        = input_manager_apply_seat_config
            (store_seat_config s1 { name := seat0.name, fallback := 1, attachments := [] }).1
            (store_seat_config s1 { name := seat0.name, fallback := 1, attachments := [] }).2 := by
      have hb : ((some i).bind fun a => s1.seats[a]?) = some seat0 := hseat0
      simp only [input_manager_verify_fallback_seat, h, Bool.not_false, if_true, hget, hb]
      rfl
    obtain ⟨hfind, hscname, hfb, hseats, _⟩ :=
      store_seat_config_spec s1 { name := seat0.name, fallback := 1, attachments := [] }
    have hscname2 : (store_seat_config s1
        { name := seat0.name, fallback := 1, attachments := [] }).2.name = DEFAULT_SEAT := by
      rw [hscname]; exact hname0
    obtain ⟨_, hcfg, _, _, _, hnames, _⟩ :=
      apply_seat_config_result
        (store_seat_config s1 { name := seat0.name, fallback := 1, attachments := [] }).1
        (store_seat_config s1 { name := seat0.name, fallback := 1, attachments := [] }).2
    rw [← hverify] at hcfg hnames
    have hin : DEFAULT_SEAT ∈ (input_manager_verify_fallback_seat s).seats.map
        sway_seat.name := by
      rw [hnames, hscname2, hseats]
      have : DEFAULT_SEAT ∈ s1.seats.map sway_seat.name :=
        List.mem_map.mpr ⟨seat0, hmem0, hname0⟩
      simp [this]
    obtain ⟨seat, hseat, hname⟩ := List.mem_map.mp hin
    have hfb1 : (store_seat_config s1
        { name := seat0.name, fallback := 1, attachments := [] }).2.fallback = 1 :=
      hfb (show (1 : Int) ≠ -1 by decide)
    refine ⟨seat, hseat, hname, _, ?_, hscname2, hfb1⟩
    rw [seat_get_config, hcfg, hname, ← hfind]
    show _ = List.find? (fun c => decide (seat0.name = c.name)) _
    rw [hname0]
  refine ⟨?_, ?_, hpos⟩
  · cases h : input_has_seat_fallback_configuration s with
    | true =>
      rw [hpos h]
      exact (input_has_seat_fallback_configuration_iff s).mp h
    | false =>
      obtain ⟨seat, hseat, _, c, hc, hcn, hcf⟩ := hneg h
      refine ⟨seat, hseat, c, hc, ?_, ?_⟩
      · rw [hcn]; decide
      · rw [hcf]; decide
  · intro h
    obtain ⟨seat, hseat, hname, c, hc, _, hcf⟩ := hneg h
    exact ⟨seat, hseat, hname, c, hc, hcf⟩

/-- In a state whose seat rules leave `fallback` unset, `input_manager_verify_fallback_seat`
brings in the default seat with `fallback` true. -/
theorem verify_fallback_seat_configured_witness :
    input_has_seat_fallback_configuration replace_state = false
    ∧ ∃ seat ∈ (input_manager_verify_fallback_seat replace_state).seats,
        seat.name = DEFAULT_SEAT
          ∧ seat_has_fallback (input_manager_verify_fallback_seat replace_state) seat :=
  ⟨by decide, (verify_fallback_seat_configured replace_state).2.1 (by decide)⟩

/-! ## Theorems: discovery of a device -/

/-- The function `apply_input_type_config` changes nothing but the input rules. -/
theorem apply_input_type_config_frame (s : sway_state) (d : sway_input_device) :
    (apply_input_type_config s d).seats = s.seats
    ∧ (apply_input_type_config s d).seat_configs = s.seat_configs
    ∧ (apply_input_type_config s d).devices = s.devices
    ∧ (apply_input_type_config s d).libinput_calls = s.libinput_calls
    ∧ (apply_input_type_config s d).input_type_configs = s.input_type_configs := by
  simp only [apply_input_type_config]
  cases find_type_config (input_device_get_type d) s.input_type_configs with
  | none => exact ⟨rfl, rfl, rfl, rfl, rfl⟩
  | some t => exact ⟨rfl, rfl, rfl, rfl, rfl⟩

/-- The functions `input_manager_libinput_config_*` change nothing but the history of
driver calls. -/
theorem libinput_config_with_frame (calls : input_config → List libinput_device_config)
    (s : sway_state) (d : sway_input_device) :
    (libinput_config_with calls s d).seats = s.seats
    ∧ (libinput_config_with calls s d).seat_configs = s.seat_configs
    ∧ (libinput_config_with calls s d).devices = s.devices
    ∧ (libinput_config_with calls s d).input_configs = s.input_configs
    ∧ (libinput_config_with calls s d).input_type_configs = s.input_type_configs := by
  simp only [libinput_config_with]
  cases input_device_get_config s d with
  | none => exact ⟨rfl, rfl, rfl, rfl, rfl⟩
  | some ic =>
    simp only
    split
    · exact ⟨rfl, rfl, rfl, rfl, rfl⟩
    · exact ⟨rfl, rfl, rfl, rfl, rfl⟩

/-- The push of the configuration of a device to the driver changes nothing but the
history of driver calls. -/
theorem libinput_config_device_frame (s : sway_state) (d : sway_input_device) :
    (libinput_config_device s d).seats = s.seats
    ∧ (libinput_config_device s d).seat_configs = s.seat_configs
    ∧ (libinput_config_device s d).devices = s.devices
    ∧ (libinput_config_device s d).input_configs = s.input_configs
    ∧ (libinput_config_device s d).input_type_configs = s.input_type_configs := by
  simp only [libinput_config_device, input_manager_libinput_config_pointer,
    input_manager_libinput_config_keyboard, input_manager_libinput_config_switch,
    input_manager_libinput_config_touch]
  split
  · exact libinput_config_with_frame _ s d
  · split
    · exact libinput_config_with_frame _ s d
    · split
      · exact libinput_config_with_frame _ s d
      · split
        · exact libinput_config_with_frame _ s d
        · exact ⟨rfl, rfl, rfl, rfl, rfl⟩

/-- The second half of `handle_new_input` in a state without seats and seat rules:
the seat `seat0` is created with `fallback` true, and the device is attached
to it. -/
theorem handle_new_input_attach_initial (s : sway_state) (d : sway_input_device)
    (hseats : s.seats = []) (hcfgs : s.seat_configs = []) (hdevs : s.devices = [d]) :
    (handle_new_input_attach s d).seats
      = [{ name := "seat0", devices := [d.addr],
           applied_config := some { name := "seat0", fallback := 1, attachments := [] } }]
    ∧ (handle_new_input_attach s d).seat_configs
      = [{ name := "seat0", fallback := 1, attachments := [] }]
    ∧ (handle_new_input_attach s d).devices = [d] := by
  obtain ⟨devs, seats, ics, tcs, scs, calls⟩ := s
  simp only at hseats hcfgs hdevs
  subst hseats hcfgs hdevs
  simp [handle_new_input_attach, input_manager_verify_fallback_seat,
    input_has_seat_fallback_configuration,
    input_manager_get_default_seat, input_manager_get_seat, input_manager_get_seat_loop,
    seat_create, DEFAULT_SEAT, new_seat_config, store_seat_config, store_seat_config_loop,
    input_manager_apply_seat_config, apply_seat_config_seats, update_seat,
    seat_apply_config, apply_seat_config_device_eq, reconcile_seat, reconciled_attachment,
    seat_rule_attaches, seat_rule_fallback, seat_config_get_attachment, seat_add_device,
    handle_new_input_has_attachment, handle_new_input_is_fallback, seat_get_config]

/-- C5: from a state with zero seats, zero seat configurations and zero devices,
`handle_new_input` for one device ends in a state with exactly one seat, which
is `seat0`, whose configuration has `fallback` true and to which the
discovered device is attached. -/
theorem handle_new_input_first_device (input_configs input_type_configs : List input_config)
    (libinput_calls : List (Nat × libinput_device_config)) (device : wlr_input_device)
    (addr : Nat) :
    (handle_new_input (initial_state input_configs input_type_configs libinput_calls)
        device addr).seats
      = [{ name := "seat0", devices := [addr],
           applied_config := some { name := "seat0", fallback := 1, attachments := [] } }]
    ∧ (handle_new_input (initial_state input_configs input_type_configs libinput_calls)
        device addr).seat_configs
      = [{ name := "seat0", fallback := 1, attachments := [] }]
    ∧ (handle_new_input (initial_state input_configs input_type_configs libinput_calls)
        device addr).devices
      = [{ addr := addr, identifier := input_device_get_identifier device,
           wlr_device := device }]
    ∧ ∀ seat ∈ (handle_new_input
          (initial_state input_configs input_type_configs libinput_calls) device addr).seats,
        seat.name = DEFAULT_SEAT
        ∧ seat_has_fallback
            (handle_new_input (initial_state input_configs input_type_configs libinput_calls)
              device addr) seat
        ∧ addr ∈ seat.devices := by
  have hpre := libinput_config_device_frame
    (apply_input_type_config
      { initial_state input_configs input_type_configs libinput_calls with
        devices := [{ addr := addr, wlr_device := device,
                      identifier := input_device_get_identifier device }] }
      { addr := addr, wlr_device := device, identifier := input_device_get_identifier device })
    { addr := addr, wlr_device := device, identifier := input_device_get_identifier device }
  have hpre2 := apply_input_type_config_frame
    { initial_state input_configs input_type_configs libinput_calls with
      devices := [{ addr := addr, wlr_device := device,
                    identifier := input_device_get_identifier device }] }
    { addr := addr, wlr_device := device, identifier := input_device_get_identifier device }
  obtain ⟨h1, h2, h3⟩ := handle_new_input_attach_initial _
    { addr := addr, wlr_device := device, identifier := input_device_get_identifier device }
    (hpre.1.trans hpre2.1) (hpre.2.1.trans hpre2.2.1) (hpre.2.2.1.trans hpre2.2.2.1)
  have hs : (handle_new_input (initial_state input_configs input_type_configs libinput_calls)
      device addr).seats = _ := h1
  have hc : (handle_new_input (initial_state input_configs input_type_configs libinput_calls)
      device addr).seat_configs = _ := h2
  refine ⟨hs, hc, h3, ?_⟩
  intro seat hseat
  rw [hs] at hseat
  simp only [List.mem_singleton] at hseat
  subst hseat
  refine ⟨rfl, ⟨{ name := "seat0", fallback := 1, attachments := [] }, ?_, rfl⟩, by simp⟩
  rw [seat_get_config, hc]
  simp

/-! ## Theorems: removal of a device -/

/-- Among devices with distinct driver handles, the lookup by driver handle finds the
device that has the handle. -/
theorem input_sway_device_from_wlr_mem (s : sway_state) (d : sway_input_device)
    (hnodup : (s.devices.map fun x => x.wlr_device.addr).Nodup) (hd : d ∈ s.devices) :
    input_sway_device_from_wlr s d.wlr_device = some d := by
  simp only [input_sway_device_from_wlr]
  generalize s.devices = l at hnodup hd
  induction l with
  | nil => simp at hd
  | cons x rest ih =>
    rw [List.map_cons, List.nodup_cons] at hnodup
    rcases List.mem_cons.mp hd with h | h
    · subst h
      simp [List.find?_cons]
    · have hne : ¬ x.wlr_device.addr = d.wlr_device.addr := by
        intro heq
        apply hnodup.1
        rw [heq]
        exact List.mem_map.mpr ⟨d, h, rfl⟩
      simp only [List.find?_cons, hne, decide_False]
      exact ih hnodup.2 h

/-- C6: after `handle_device_destroy` runs for the driver handle of a registered device, no
seat holds the device and the device is not in the device registry; the other
devices, in their order, and the attachments of the other devices, seat by
seat, are unchanged, as are the seats themselves and the rules.  When the handle
is that of no registered device, the state is unchanged.  The driver handles of
the registered devices are distinct. -/
theorem handle_device_destroy_detaches (s : sway_state) (d : sway_input_device)
    (hnodup : (s.devices.map fun x => x.wlr_device.addr).Nodup) (hd : d ∈ s.devices) :
    (∀ seat ∈ (handle_device_destroy s d.wlr_device).seats, d.addr ∉ seat.devices)
    ∧ d ∉ (handle_device_destroy s d.wlr_device).devices
    ∧ (handle_device_destroy s d.wlr_device).devices = s.devices.filter (fun x => decide (x ≠ d))
    ∧ (handle_device_destroy s d.wlr_device).seats
        = s.seats.map (fun seat =>
            { seat with devices := seat.devices.filter fun a => decide (a ≠ d.addr) })
    ∧ (∀ a, a ≠ d.addr →
        (handle_device_destroy s d.wlr_device).seats.map
            (fun seat => (seat.name, decide (a ∈ seat.devices)))
          = s.seats.map (fun seat => (seat.name, decide (a ∈ seat.devices))))
    ∧ (handle_device_destroy s d.wlr_device).seat_configs = s.seat_configs
    ∧ (handle_device_destroy s d.wlr_device).input_configs = s.input_configs
    ∧ (handle_device_destroy s d.wlr_device).input_type_configs = s.input_type_configs
    ∧ (handle_device_destroy s d.wlr_device).libinput_calls = s.libinput_calls
    ∧ (∀ device : wlr_input_device,
        (∀ x ∈ s.devices, x.wlr_device.addr ≠ device.addr) →
        handle_device_destroy s device = s) := by
  have hfind := input_sway_device_from_wlr_mem s d hnodup hd
  have hnd : s.devices.Nodup := List.Nodup.of_map _ hnodup
  have hpost : handle_device_destroy s d.wlr_device
      = { s with
          seats := s.seats.map fun seat => seat_remove_device seat d
          devices := s.devices.erase d } := by
    simp only [handle_device_destroy, hfind]
  have herase : s.devices.erase d = s.devices.filter (fun x => decide (x ≠ d)) := by
    rw [List.Nodup.erase_eq_filter hnd]
    congr 1
    funext x
    by_cases hx : x = d
    · simp [hx]
    · simp [hx]
  rw [hpost]
  refine ⟨?_, ?_, herase, rfl, ?_, rfl, rfl, rfl, rfl, ?_⟩
  · intro seat hseat
    simp only [List.mem_map] at hseat
    obtain ⟨seat0, _, rfl⟩ := hseat
    simp [seat_remove_device]
  · show d ∉ s.devices.erase d
    rw [herase]
    simp
  · intro a ha
    simp only [List.map_map]
    apply List.map_congr_left
    intro seat _
    simp [seat_remove_device, ha]
  · intro device hdev
    have hnone : input_sway_device_from_wlr s device = none := by
      simp only [input_sway_device_from_wlr, List.find?_eq_none, decide_eq_true_eq]
      exact hdev
    simp only [handle_device_destroy, hnone]

/-- The removal of the pointer from a state with two devices and two seats: the keyboard
stays registered and attached to seat `A`, and no seat holds the pointer. -/
theorem handle_device_destroy_detaches_witness :
    (∀ seat ∈ (handle_device_destroy two_device_state foo_bar_device.wlr_device).seats,
      foo_bar_device.addr ∉ seat.devices)
    ∧ (handle_device_destroy two_device_state foo_bar).devices = [keyboard_device]
    ∧ (handle_device_destroy two_device_state foo_bar).seats
        = [{ name := "A", devices := [101], applied_config := none },
           { name := "B", devices := [], applied_config := none }] :=
  ⟨(handle_device_destroy_detaches two_device_state foo_bar_device (by decide)
      (by decide)).1,
    by decide, by decide⟩

/-! ## Theorems: the wildcard seat rule and the at-least-one-seat invariant -/

/-- Adding a device keeps the applied configuration of the seat. -/
theorem seat_add_device_applied_config (seat : sway_seat) (d : sway_input_device) :
    (seat_add_device seat d).applied_config = seat.applied_config := by
  simp only [seat_add_device]
  split <;> rfl

/-- The reconciliation of a seat for a list of devices keeps its applied
configuration. -/
theorem foldl_reconcile_seat_applied_config (cfgs : List seat_config) (names : List String)
    (ds : List sway_input_device) (seat : sway_seat) :
    (ds.foldl (reconcile_seat cfgs names) seat).applied_config = seat.applied_config := by
  induction ds generalizing seat with
  | nil => rfl
  | cons d rest ih =>
    rw [List.foldl_cons, ih]
    simp only [reconcile_seat]
    split
    · exact seat_add_device_applied_config seat d
    · rfl

/-- C15: when `input_manager_apply_seat_config` is called with the `*` seat configuration,
every seat that has no configuration of its own is given the wildcard
configuration as its applied configuration, and every seat that has a
configuration of its own (the stored rule of its name) is applied that one; no
seat is created by the call, and the seat rules are unchanged. -/
theorem apply_seat_config_wildcard (s : sway_state) (sc : seat_config)
    (hwildcard : sc.name = "*") :
    (input_manager_apply_seat_config s sc).seats.map sway_seat.name
      = s.seats.map sway_seat.name
    ∧ (input_manager_apply_seat_config s sc).seats.length = s.seats.length
    ∧ (input_manager_apply_seat_config s sc).seat_configs = s.seat_configs
    ∧ ∀ seat ∈ (input_manager_apply_seat_config s sc).seats,
        (seat_get_config s seat = none → seat.applied_config = some sc)
        ∧ (∀ own, seat_get_config s seat = some own →
            seat.applied_config = some own ∧ own.name = seat.name) := by
  obtain ⟨_, hcfg, _, _, _, hnames, _⟩ := apply_seat_config_result s sc
  simp only [hwildcard, true_or, if_true] at hnames
  have hpost : input_manager_apply_seat_config s sc
      = { s with
          seats := (s.seats.map fun seat =>
              seat_apply_config seat
                (match seat_get_config s seat with
                  | some own => own
                  | none => sc)).map fun seat =>
            s.devices.foldl (reconcile_seat s.seat_configs (s.seats.map sway_seat.name))
              seat } := by
    have hseats : apply_seat_config_seats s sc
        = some { s with
            seats := s.seats.map fun seat =>
              seat_apply_config seat
                (match seat_get_config s seat with
                  | some own => own
                  | none => sc) } := by
      simp only [apply_seat_config_seats, if_pos hwildcard]
    simp only [input_manager_apply_seat_config, hseats, foldl_apply_seat_config_device_eq,
      List.map_map]
    congr 1
  refine ⟨hnames, ?_, hcfg, ?_⟩
  · have h := congrArg List.length hnames
    simpa using h
  · intro seat hseat
    rw [hpost] at hseat
    simp only [List.mem_map] at hseat
    obtain ⟨seat1, ⟨seat0, _, rfl⟩, rfl⟩ := hseat
    have hget : seat_get_config s
        (s.devices.foldl (reconcile_seat s.seat_configs (s.seats.map sway_seat.name))
          (seat_apply_config seat0
            (match seat_get_config s seat0 with
              | some own => own
              | none => sc)))
        = seat_get_config s seat0 := by
      simp only [seat_get_config, foldl_reconcile_seat_name, seat_apply_config]
    rw [hget, foldl_reconcile_seat_applied_config, foldl_reconcile_seat_name]
    constructor
    · intro hnone
      simp only [seat_apply_config, hnone]
    · intro own hown
      refine ⟨by simp only [seat_apply_config, hown], ?_⟩
      have hp := List.find?_some hown
      simp only [decide_eq_true_eq] at hp
      exact hp.symm

/-- The `*` seat rule applied to three seats of which `B` has a rule of its own: `A` and
`C` are applied the `*` rule, `B` its own rule, and no seat is created. -/
theorem apply_seat_config_wildcard_witness :
    (input_manager_apply_seat_config wildcard_state (seat_rule "*" 1 [])).seats.map
        (fun seat => (seat.name, seat.applied_config))
      = [("A", some (seat_rule "*" 1 [])),
         ("B", some (seat_rule "B" (-1) ["1:2:Foo_Bar"])),
         ("C", some (seat_rule "*" 1 []))]
    ∧ (input_manager_apply_seat_config wildcard_state (seat_rule "*" 1 [])).seats.length
      = wildcard_state.seats.length :=
  ⟨by decide, (apply_seat_config_wildcard wildcard_state (seat_rule "*" 1 []) rfl).2.1⟩

/-- The second half of `handle_new_input` leaves the device attached to some seat whenever
some seat is a fallback seat afterwards. -/
theorem handle_new_input_attach_attached (s : sway_state) (d : sway_input_device)
    (hfallback : ∃ seat ∈ (handle_new_input_attach s d).seats,
      seat_has_fallback (handle_new_input_attach s d) seat) :
    ∃ seat ∈ (handle_new_input_attach s d).seats, d.addr ∈ seat.devices := by
  unfold handle_new_input_attach at hfallback ⊢
  generalize input_manager_verify_fallback_seat s = v at hfallback ⊢
  cases hadded : v.seats.any fun seat => handle_new_input_has_attachment v seat d with
  | true =>
    simp only [hadded, Bool.not_true, Bool.false_eq_true, if_false]
    obtain ⟨seat0, hseat0, hatt⟩ := List.any_eq_true.mp hadded
    refine ⟨seat_add_device seat0 d, ?_, (mem_seat_add_device seat0 d d.addr).mpr (Or.inl rfl)⟩
    simp only [List.mem_map]
    exact ⟨seat0, hseat0, by simp only [hatt, if_true]⟩
  | false =>
    simp only [hadded, Bool.not_false, if_true] at hfallback ⊢
    obtain ⟨seat2, hseat2, hfb⟩ := hfallback
    simp only [List.mem_map] at hseat2
    obtain ⟨seat1, hseat1, rfl⟩ := hseat2
    refine ⟨_, List.mem_map.mpr ⟨seat1, List.mem_map.mpr hseat1, rfl⟩, ?_⟩
    have hfb2 := (seat_rule_fallback_iff _ _).mpr hfb
    have hname : (if handle_new_input_is_fallback
          { v with
            seats := v.seats.map fun seat =>
              if handle_new_input_has_attachment v seat d then seat_add_device seat d
              else seat } seat1 = true
        then seat_add_device seat1 d else seat1).name = seat1.name := by
      split
      · exact seat_add_device_name seat1 d
      · rfl
    rw [hname] at hfb2
    have hfb3 : handle_new_input_is_fallback
        { v with
          seats := v.seats.map fun seat =>
            if handle_new_input_has_attachment v seat d then seat_add_device seat d
            else seat } seat1 = true := hfb2
    simp only [hfb3, if_true]
    exact (mem_seat_add_device seat1 d d.addr).mpr (Or.inl rfl)

/-- C16: after `input_manager_apply_seat_config`, if some seat has `fallback` true, every
registered device is attached to at least one seat (the addresses of the
registered devices being distinct); and after `handle_new_input`, if some seat
has `fallback` true, the discovered device is attached to at least one seat. -/
theorem attached_to_at_least_one_seat (s : sway_state) :
    (∀ (sc : seat_config) (d : sway_input_device),
      (s.devices.map sway_input_device.addr).Nodup → d ∈ s.devices →
      (∃ seat ∈ (input_manager_apply_seat_config s sc).seats,
        seat_has_fallback (input_manager_apply_seat_config s sc) seat) →
      ∃ seat ∈ (input_manager_apply_seat_config s sc).seats, d.addr ∈ seat.devices)
    ∧ (∀ (device : wlr_input_device) (addr : Nat),
      (∃ seat ∈ (handle_new_input s device addr).seats,
        seat_has_fallback (handle_new_input s device addr) seat) →
      ∃ seat ∈ (handle_new_input s device addr).seats, addr ∈ seat.devices) := by
  constructor
  · intro sc d hnodup hd hfallback
    by_cases hclaimed : ∃ st ∈ (input_manager_apply_seat_config s sc).seats,
        seat_declares_attachment (input_manager_apply_seat_config s sc) st d.identifier
    · obtain ⟨st, hst, hdecl⟩ := hclaimed
      exact ⟨st, hst, (apply_seat_config_attached_iff s sc d hnodup hd st hst).mpr
        (Or.inl ⟨⟨st, hst, hdecl⟩, hdecl⟩)⟩
    · obtain ⟨st, hst, hfb⟩ := hfallback
      exact ⟨st, hst, (apply_seat_config_attached_iff s sc d hnodup hd st hst).mpr
        (Or.inr ⟨hclaimed, hfb⟩)⟩
  · intro device addr hfallback
    exact handle_new_input_attach_attached _
      { addr := addr, wlr_device := device, identifier := input_device_get_identifier device }
      hfallback

/-- The invariant on two concrete runs: the device `1:2:Foo_Bar`, claimed by no seat, is
attached to the fallback seat `F` after `input_manager_apply_seat_config`, and
the keyboard discovered in that state is attached to `F` after
`handle_new_input`. -/
theorem attached_to_at_least_one_seat_witness :
    (∃ seat ∈ (input_manager_apply_seat_config fallback_state (seat_rule "F" 1 [])).seats,
      foo_bar_device.addr ∈ seat.devices)
    ∧ (∃ seat ∈ (handle_new_input fallback_state keyboard 101).seats, 101 ∈ seat.devices)
    ∧ seats_holding (handle_new_input fallback_state keyboard 101) 101 = ["F"] :=
  ⟨(attached_to_at_least_one_seat fallback_state).1 (seat_rule "F" 1 []) foo_bar_device
      (by decide) (by decide)
      ⟨{ name := "F", devices := [100], applied_config := some (seat_rule "F" 1 []) },
        by decide, (seat_rule_fallback_iff _ _).mp (by decide)⟩,
    (attached_to_at_least_one_seat fallback_state).2 keyboard 101
      ⟨{ name := "F", devices := [101], applied_config := none },
        by decide, (seat_rule_fallback_iff _ _).mp (by decide)⟩,
    by decide⟩

/-! ## Theorems: pushing a configuration to the driver -/

/-- A filter followed by a map, one element at a time. -/
theorem filter_map_cons {α β : Type} (p : α → Bool) (g : α → β) (a : α) (l : List α) :
    ((a :: l).filter p).map g = (if p a = true then [g a] else []) ++ (l.filter p).map g := by
  cases h : p a <;> simp [List.filter_cons, h]

/-- The setter call for a field writes that field. -/
theorem input_config_push_field (ic : input_config) (f : config_field) :
    (ic.push f).field = f := by
  cases f <;> rfl

/-- The calls of `input_manager_libinput_config_pointer` are the calls for the pointer
fields that are set, in order. -/
theorem libinput_config_pointer_calls_eq (ic : input_config) :
    libinput_config_pointer_calls ic = (pointer_fields.filter ic.is_set).map ic.push := by
  simp only [pointer_fields, filter_map_cons, List.filter_nil, List.map_nil,
    List.append_nil, input_config.is_set, input_config.push, decide_eq_true_eq,
    libinput_config_pointer_calls, List.append_assoc]

/-- The calls of `input_manager_libinput_config_keyboard` and of
`input_manager_libinput_config_switch` are the call for send-events when it is
set. -/
theorem libinput_config_keyboard_calls_eq (ic : input_config) :
    libinput_config_keyboard_calls ic
      = ([config_field.send_events].filter ic.is_set).map ic.push := by
  simp only [filter_map_cons, List.filter_nil, List.map_nil, List.append_nil,
    input_config.is_set, input_config.push, decide_eq_true_eq,
    libinput_config_keyboard_calls]

/-- The calls of `input_manager_libinput_config_touch` are the calls for send-events and
the calibration matrix, each when it is set. -/
theorem libinput_config_touch_calls_eq (ic : input_config) :
    libinput_config_touch_calls ic
      = ([config_field.send_events, config_field.calibration_matrix].filter
          ic.is_set).map ic.push := by
  simp only [filter_map_cons, List.filter_nil, List.map_nil, List.append_nil,
    input_config.is_set, input_config.push, decide_eq_true_eq,
    libinput_config_touch_calls]

/-- Making no call leaves the state as it is. -/
theorem push_calls_nil (s : sway_state) (addr : Nat) : push_calls s addr [] = s := by
  cases s
  simp [push_calls]

/-- The common frame of the functions `input_manager_libinput_config_*` makes the calls
on a libinput device with a resolved configuration and does nothing
otherwise. -/
theorem libinput_config_with_eq (calls : input_config → List libinput_device_config)
    (s : sway_state) (d : sway_input_device) :
    libinput_config_with calls s d
      = push_calls s d.wlr_device.addr
          (match input_device_get_config s d with
            | none => []
            | some ic => if d.wlr_device.is_libinput then calls ic else []) := by
  simp only [libinput_config_with]
  cases input_device_get_config s d with
  | none => exact (push_calls_nil s _).symm
  | some ic =>
    cases hlib : d.wlr_device.is_libinput with
    | false =>
      simp only [Bool.not_false, if_true, Bool.false_eq_true, if_false]
      exact (push_calls_nil s _).symm
    | true =>
      simp only [Bool.not_true, Bool.false_eq_true, if_false, if_true]
      rfl

/-- The push of the configuration of a device makes the calls of `config_calls`, on the
device, and changes nothing else. -/
theorem libinput_config_device_eq (s : sway_state) (d : sway_input_device) :
    libinput_config_device s d = push_calls s d.wlr_device.addr (config_calls s d) := by
  have hnone : config_calls s d
      = match input_device_get_config s d with
        | none => []
        | some ic =>
          if d.wlr_device.is_libinput then
            ((device_fields d.wlr_device.type).filter ic.is_set).map ic.push
          else [] := rfl
  simp only [libinput_config_device, input_manager_libinput_config_pointer,
    input_manager_libinput_config_keyboard, input_manager_libinput_config_switch,
    input_manager_libinput_config_touch, libinput_config_with_eq]
  rw [hnone]
  cases htype : d.wlr_device.type <;>
    simp only [device_fields, reduceCtorEq, or_false, false_or, or_self, if_true, if_false,
      libinput_config_pointer_calls_eq, libinput_config_keyboard_calls_eq,
      libinput_config_touch_calls_eq]
  cases input_device_get_config s d with
  | none => exact (push_calls_nil s _).symm
  | some ic =>
    simp only [List.filter_nil, List.map_nil, ite_self]
    exact (push_calls_nil s _).symm

/-- The body of the device loop of `input_manager_apply_input_config` either pushes the
configuration of the device or leaves the state as it is. -/
theorem apply_input_config_device_eq (arg : input_config) (s : sway_state)
    (d : sway_input_device) :
    apply_input_config_device arg s d = libinput_config_device s d
    ∨ apply_input_config_device arg s d = s := by
  simp only [apply_input_config_device, seat_configure_device, List.map_id']
  split
  · exact Or.inl rfl
  · exact Or.inr rfl

/-- C12: applying the resolved configuration of a libinput device pushes a field to the
driver if and only if the field belongs to the field set of the kind of the
device (the 14 pointer fields for pointers and tablet tools, send-events for
keyboards and switches, send-events and the calibration matrix for touch
devices, nothing for any other kind) and is set in the configuration; each call
carries the value of the configuration, and an unset pointer acceleration is
never pushed.  With no resolved configuration nothing is pushed. -/
theorem libinput_config_device_pushes (s : sway_state) (d : sway_input_device) :
    (∀ ic, d.wlr_device.is_libinput = true → input_device_get_config s d = some ic →
      ∃ pushed : List libinput_device_config,
        libinput_config_device s d = push_calls s d.wlr_device.addr pushed
        ∧ pushed = ((device_fields d.wlr_device.type).filter ic.is_set).map ic.push
        ∧ (∀ f, (∃ c ∈ pushed, c.field = f) ↔
            (f ∈ device_fields d.wlr_device.type ∧ ic.is_set f = true))
        ∧ (∀ c ∈ pushed, c = ic.push c.field)
        ∧ (ic.pointer_accel = FLT_MIN →
            ∀ c ∈ pushed, c.field ≠ config_field.pointer_accel))
    ∧ (input_device_get_config s d = none → libinput_config_device s d = s)
    ∧ (∀ arg : input_config,
        apply_input_config_device arg s d = libinput_config_device s d
        ∨ apply_input_config_device arg s d = s) := by
  refine ⟨?_, ?_, fun arg => apply_input_config_device_eq arg s d⟩
  · intro ic hlib hic
    have hcalls : config_calls s d
        = ((device_fields d.wlr_device.type).filter ic.is_set).map ic.push := by
      simp only [config_calls, hic, hlib, if_true]
    have hiff : ∀ f, (∃ c ∈ ((device_fields d.wlr_device.type).filter ic.is_set).map ic.push,
        c.field = f) ↔ (f ∈ device_fields d.wlr_device.type ∧ ic.is_set f = true) := by
      intro f
      simp only [List.mem_map, List.mem_filter]
      constructor
      · rintro ⟨c, ⟨g, hg, rfl⟩, hf⟩
        rw [input_config_push_field] at hf
        subst hf
        exact hg
      · intro hf
        exact ⟨ic.push f, ⟨f, hf, rfl⟩, input_config_push_field ic f⟩
    refine ⟨_, by rw [libinput_config_device_eq, hcalls], rfl, hiff, ?_, ?_⟩
    · intro c hc
      simp only [List.mem_map] at hc
      obtain ⟨g, _, rfl⟩ := hc
      rw [input_config_push_field]
    · intro hunset c hc hfield
      have h := (hiff config_field.pointer_accel).mp ⟨c, hc, hfield⟩
      simp [input_config.is_set, hunset] at h
  · intro hnone
    rw [libinput_config_device_eq]
    simp only [config_calls, hnone]
    exact push_calls_nil s _

/-- The push for the pointer `1:2:Foo_Bar` under the rules `*`, `type:pointer` and
`1:2:Foo_Bar`: the resolved configuration sets the acceleration profile only,
and that is the one call made. -/
theorem libinput_config_device_pushes_witness :
    (libinput_config_device (precedence_rules 1 1 2 true) foo_bar_device).libinput_calls
      = [(7, libinput_device_config.accel_set_profile 2)]
    ∧ ∃ pushed : List libinput_device_config,
        libinput_config_device (precedence_rules 1 1 2 true) foo_bar_device
          = push_calls (precedence_rules 1 1 2 true) foo_bar_device.wlr_device.addr pushed
        ∧ pushed = ((device_fields foo_bar_device.wlr_device.type).filter
            ({ new_input_config "1:2:Foo_Bar" with accel_profile := 2 } :
              input_config).is_set).map
            ({ new_input_config "1:2:Foo_Bar" with accel_profile := 2 } :
              input_config).push :=
  ⟨by decide,
    match (libinput_config_device_pushes (precedence_rules 1 1 2 true) foo_bar_device).1
        { new_input_config "1:2:Foo_Bar" with accel_profile := 2 } (by decide)
        (by decide) with
    | ⟨pushed, h1, h2, _⟩ => ⟨pushed, h1, h2⟩⟩

/-! ## Theorems: resetting a device -/

/-- The common frame of the functions `input_manager_libinput_reset_*` makes the calls on
a libinput device and does nothing otherwise. -/
theorem libinput_reset_with_eq (calls : libinput_device → List libinput_device_config)
    (driver : wlr_input_device → libinput_device) (s : sway_state) (d : sway_input_device) :
    libinput_reset_with calls driver s d
      = push_calls s d.wlr_device.addr
          (if d.wlr_device.is_libinput then calls (driver d.wlr_device) else []) := by
  simp only [libinput_reset_with]
  cases hlib : d.wlr_device.is_libinput with
  | false =>
    simp only [Bool.not_false, if_true, Bool.false_eq_true, if_false]
    exact (push_calls_nil s _).symm
  | true =>
    simp only [Bool.not_true, Bool.false_eq_true, if_false, if_true]
    rfl

/-- What `input_manager_reset_input` pushes: on a libinput device, for every field of the
field set of its kind the default of the driver, except the tap button map, for
which it pushes the value the driver currently holds; nothing on other
devices. -/
theorem input_manager_reset_input_eq (driver : wlr_input_device → libinput_device)
    (s : sway_state) (d : sway_input_device) :
    input_manager_reset_input driver s d
      = push_calls s d.wlr_device.addr
          (if d.wlr_device.is_libinput then reset_calls (driver d.wlr_device)
            d.wlr_device.type else []) := by
  simp only [input_manager_reset_input, seat_reset_device, List.map_id',
    input_manager_libinput_reset_pointer, input_manager_libinput_reset_keyboard,
    input_manager_libinput_reset_switch, input_manager_libinput_reset_touch,
    libinput_reset_with_eq]
  cases htype : d.wlr_device.type <;>
    simp only [reduceCtorEq, or_false, false_or, or_self, if_true, if_false] <;>
    cases d.wlr_device.is_libinput <;>
    first
      | rfl
      | exact (push_calls_nil s _).symm

/-- C13, the failing input: a libinput pointer whose tap button map is 1 while the default
of the driver is 0.  `input_manager_reset_input` pushes 14 values; the one for
the tap button map is the current value 1, not the default 0, and the tap
button map of the driver is still 1 after the reset; the other 13 values are
the defaults. -/
theorem input_manager_reset_input_tap_button_map :
    (input_manager_reset_input lmr_driver empty_state foo_bar_device).libinput_calls
      = (((pointer_fields.filter fun f => decide (f ≠ config_field.tap_button_map)).map
            (lmr_driver foo_bar).defaults.push)
          ++ [libinput_device_config.tap_set_button_map 1]).map (fun c => (7, c))
    ∧ (7, libinput_device_config.tap_set_button_map
          (lmr_driver foo_bar).defaults.tap_button_map)
        ∉ (input_manager_reset_input lmr_driver empty_state foo_bar_device).libinput_calls
    ∧ ((lmr_driver foo_bar).config.run
        ((input_manager_reset_input lmr_driver empty_state
          foo_bar_device).libinput_calls.map Prod.snd)).tap_button_map = 1
    ∧ (lmr_driver foo_bar).defaults.tap_button_map = 0 := by
  decide

/-! ## Theorems: idempotence of applying a configuration -/

/-- A setter call overwrites what an earlier call wrote to the same field. -/
theorem set_set_same (st : libinput_config_state) (c c2 : libinput_device_config)
    (h : c.field = c2.field) : (st.set c2).set c = st.set c := by
  cases c <;> cases c2 <;> first | rfl | cases h

/-- Setter calls for different fields commute. -/
theorem set_set_comm (st : libinput_config_state) (c c2 : libinput_device_config)
    (h : c.field ≠ c2.field) : (st.set c2).set c = (st.set c).set c2 := by
  cases c <;> cases c2 <;> first | rfl | exact absurd rfl h

/-- A setter call made before a sequence of calls is lost when the sequence writes its
field, and can be made after the sequence otherwise. -/
theorem run_set (l : List libinput_device_config) (st : libinput_config_state)
    (c : libinput_device_config) :
    (st.set c).run l
      = if l.any (fun c2 => decide (c2.field = c.field)) then st.run l
        else (st.run l).set c := by
  induction l generalizing st with
  | nil => simp [libinput_config_state.run]
  | cons d rest ih =>
    have hrun : ∀ x : libinput_config_state, x.run (d :: rest) = (x.set d).run rest :=
      fun _ => rfl
    rw [hrun, hrun]
    by_cases hd : d.field = c.field
    · rw [set_set_same st d c hd]
      simp [hd]
    · rw [set_set_comm st d c hd, ih]
      simp [hd]

/-- Making a sequence of setter calls a second time changes nothing. -/
theorem run_run (l : List libinput_device_config) (st : libinput_config_state) :
    (st.run l).run l = st.run l := by
  induction l generalizing st with
  | nil => rfl
  | cons d rest ih =>
    have hrun : ∀ x : libinput_config_state, x.run (d :: rest) = (x.set d).run rest :=
      fun _ => rfl
    rw [hrun, hrun, run_set rest ((st.set d).run rest) d]
    split
    · exact ih _
    · rename_i hany
      rw [ih, run_set rest st d, if_neg hany, set_set_same _ d d rfl]

/-- A sequence of setter calls made twice in a row, after any history. -/
theorem run_append_twice (l0 l : List libinput_device_config) (st : libinput_config_state) :
    st.run (l0 ++ l ++ l) = st.run (l0 ++ l) := by
  simp only [libinput_config_state.run, List.foldl_append]
  exact run_run l _

/-- The calls made on a device, over a history in two parts. -/
theorem calls_on_append (addr : Nat) (l1 l2 : List (Nat × libinput_device_config)) :
    calls_on addr (l1 ++ l2) = calls_on addr l1 ++ calls_on addr l2 := by
  simp [calls_on]

/-- Making the calls on a device is appending them to the history. -/
theorem push_calls_eq_append_calls (s : sway_state) (addr : Nat)
    (calls : List libinput_device_config) :
    push_calls s addr calls = append_calls s (calls.map fun c => (addr, c)) := rfl

/-- Appending two traces in a row. -/
theorem append_calls_append_calls (s : sway_state)
    (t1 t2 : List (Nat × libinput_device_config)) :
    append_calls (append_calls s t1) t2 = append_calls s (t1 ++ t2) := by
  simp [append_calls]

/-- The body of the device loop of `input_manager_apply_input_config` appends the calls for
the device when the configuration applies to it. -/
theorem apply_input_config_device_trace (arg : input_config) (s : sway_state)
    (d : sway_input_device) :
    apply_input_config_device arg s d
      = append_calls s (apply_input_config_trace s arg [d]) := by
  simp only [apply_input_config_device, seat_configure_device, List.map_id',
    apply_input_config_trace, List.flatMap_cons, List.flatMap_nil, List.append_nil,
    apply_input_config_matches]
  by_cases h : d.identifier = arg.identifier ∨ decide (arg.identifier = "*") = true
      ∨ (decide (arg.identifier.data.take 5 = "type:".data)
          && decide (input_device_get_type d = str_offset arg.identifier 5)) = true
  · have h2 : (decide (d.identifier = arg.identifier) || decide (arg.identifier = "*")
        || (decide (arg.identifier.data.take 5 = "type:".data)
            && decide (input_device_get_type d = str_offset arg.identifier 5))) = true := by
      simpa [or_assoc] using h
    rw [if_pos h, if_pos h2, libinput_config_device_eq, push_calls_eq_append_calls]
  · have h2 : ¬ (decide (d.identifier = arg.identifier) || decide (arg.identifier = "*")
        || (decide (arg.identifier.data.take 5 = "type:".data)
            && decide (input_device_get_type d = str_offset arg.identifier 5))) = true := by
      simpa [or_assoc] using h
    rw [if_neg h, if_neg h2]
    cases s
    simp [append_calls]

/-- The device loop of `input_manager_apply_input_config` appends the calls for the
devices, in order; the calls depend on the rules and the devices only. -/
theorem foldl_apply_input_config_device (arg : input_config) (ds : List sway_input_device)
    (s : sway_state) :
    ds.foldl (apply_input_config_device arg) s
      = append_calls s (apply_input_config_trace s arg ds) := by
  induction ds generalizing s with
  | nil =>
    cases s
    simp [append_calls, apply_input_config_trace]
  | cons d rest ih =>
    rw [List.foldl_cons, apply_input_config_device_trace, ih, append_calls_append_calls]
    congr 1
    have hsame : apply_input_config_trace
        (append_calls s (apply_input_config_trace s arg [d])) arg rest
        = apply_input_config_trace s arg rest := rfl
    rw [hsame]
    simp [apply_input_config_trace]

/-- The function `input_manager_apply_input_config` appends to the history the calls for the
registered devices it applies to, and changes nothing else. -/
theorem input_manager_apply_input_config_eq (s : sway_state) (arg : input_config) :
    input_manager_apply_input_config s arg
      = append_calls s (apply_input_config_trace s arg s.devices) :=
  foldl_apply_input_config_device arg s.devices s

/-- C14: applying configuration is idempotent.  Each driver push overwriting its field of
the driver state, the driver state of every device after its configuration has
been applied twice in a row, by the push for one device or by
`input_manager_apply_input_config` for all registered devices, is the driver
state after it has been applied once, whatever the rules, the earlier history
of calls and the driver state before it; applying changes no rule. -/
theorem apply_input_config_idempotent (s : sway_state) (st : libinput_config_state)
    (addr : Nat) :
    (∀ d : sway_input_device,
      st.run (calls_on addr
          (libinput_config_device (libinput_config_device s d) d).libinput_calls)
        = st.run (calls_on addr (libinput_config_device s d).libinput_calls))
    ∧ (∀ arg : input_config,
      st.run (calls_on addr
          (input_manager_apply_input_config (input_manager_apply_input_config s arg)
            arg).libinput_calls)
        = st.run (calls_on addr (input_manager_apply_input_config s arg).libinput_calls))
    ∧ (∀ arg : input_config,
      (input_manager_apply_input_config s arg).input_configs = s.input_configs
      ∧ (input_manager_apply_input_config s arg).input_type_configs
        = s.input_type_configs
      ∧ (input_manager_apply_input_config s arg).devices = s.devices) := by
  refine ⟨?_, ?_, ?_⟩
  · intro d
    rw [libinput_config_device_eq, libinput_config_device_eq s d]
    have hsame : config_calls (push_calls s d.wlr_device.addr (config_calls s d)) d
        = config_calls s d := rfl
    rw [hsame]
    simp only [push_calls, calls_on_append]
    exact run_append_twice _ _ st
  · intro arg
    rw [input_manager_apply_input_config_eq, input_manager_apply_input_config_eq s arg]
    have hsame : apply_input_config_trace
        (append_calls s (apply_input_config_trace s arg s.devices)) arg
        (append_calls s (apply_input_config_trace s arg s.devices)).devices
        = apply_input_config_trace s arg s.devices := rfl
    rw [hsame]
    simp only [append_calls, calls_on_append]
    exact run_append_twice _ _ st
  · intro arg
    rw [input_manager_apply_input_config_eq]
    exact ⟨rfl, rfl, rfl⟩

end Sway
